import Mathlib

/-!
Shallow embedding of `can_core.c` / `can_core.h` (CAN frame dispatch core).

Modelling conventions:
* Machine integers are `Nat` with explicit reductions where C overflow or
  bit-field truncation matters: `CC_TIME_t` is `volatile uint32_t` (default
  configuration, `CC_TIME_BASE_TYPE_CUSTOM` not defined), so tick subtraction
  is computed modulo `2^32`; `Head`/`Tail` are `uint16_t`, so `+ 1` is reduced
  modulo `2^16`; the `DLC : 4` and `IDE_flag : 1` bit-fields truncate stores
  modulo `16` and `2`.
* Callback pointers are modelled by `Bool` presence flags (pointer non-null),
  and a callback invocation is recorded as an event in an event list rather
  than executed; the buffer store performed by a push and each dequeue
  iteration of a drain/flush loop are likewise recorded (`enq`/`deq` events)
  so that occupancy can be stated observationally.  Events do not influence
  the state evolution.
* `CopyBuf`'s loop counter is declared without an initializer in the source
  (`for (size_t i; i < size; i++)`); its start value is whatever the stack
  holds, so the embedding takes it as an explicit parameter `i0` and theorems
  quantify over it.  The same parameter feeds every `CopyBuf` call of one
  operation, and the uninitialized local `uint8_t Temp[8]` of
  `CC_TX_MsgFromTables` is likewise an explicit parameter.
* The global tick (`CC_GET_TICK`) is a read of externally-owned state; the
  poll functions take the current tick value `now` as a parameter (the two
  reads inside one loop body see the same value in this sequential model).
  The two build configurations of the tick source itself are modelled
  separately (`CC_GET_TICK_func` / `CC_GET_TICK_var`).
* `assert` is modelled by `Except Unit` where a claim depends on it
  (`CC_TX_Poll`); the null-instance asserts are vacuous here because the
  model has no null instance pointer.
-/

namespace CanCore

/-- `#define CC_RX_BUFFER_SIZE 32` from `can_core.h`. -/
def CC_RX_BUFFER_SIZE : Nat := 32

/-- `#define CC_TX_BUFFER_SIZE 32` from `can_core.h`. -/
def CC_TX_BUFFER_SIZE : Nat := 32

/-- Modulus of `CC_TIME_t = volatile uint32_t` (default configuration). -/
def U32_MOD : Nat := 4294967296

/-- Modulus of `uint16_t` (`Head`, `Tail`, `next_head`). -/
def U16_MOD : Nat := 65536

/-- Unsigned 32-bit subtraction `a - b` as the C expression
`CC_GET_TICK - LastTick` computes it: modulo `2^32`. -/
def u32sub (a b : Nat) : Nat := (a % U32_MOD + (U32_MOD - b % U32_MOD)) % U32_MOD

/-- `CC_RX_message_t` from `can_core.h`: ID, 8 payload bytes, the `DLC : 4`
and `IDE_flag : 1` bit-fields, and the receive timestamp `Time`. -/
structure CC_RX_message_t where
  ID : Nat
  Data : List Nat
  DLC : Nat
  IDE_flag : Nat
  Time : Nat
deriving DecidableEq

/-- A zero-initialized buffer slot (static storage). -/
instance : Inhabited CC_RX_message_t := ⟨⟨0, List.replicate 8 0, 0, 0, 0⟩⟩

/-- `CC_TX_message_t` from `can_core.h` (no timestamp field). -/
structure CC_TX_message_t where
  ID : Nat
  Data : List Nat
  DLC : Nat
  IDE_flag : Nat
deriving DecidableEq

instance : Inhabited CC_TX_message_t := ⟨⟨0, List.replicate 8 0, 0, 0⟩⟩

/-- `CC_RX_table_t` from `can_core.h`.  The `Parser` callback pointer is
modelled by its invocations being recorded as events (every claim exercising
a match presumes the entry's parser is installed, as the source calls it
unconditionally on a full match). -/
structure CC_RX_table_t where
  SlotNo : Nat
  ID : Nat
  DLC : Nat
  IDE_flag : Nat
  TimeOut : Nat
  LastTick : Nat
deriving DecidableEq

instance : Inhabited CC_RX_table_t := ⟨⟨0, 0, 0, 0, 0, 0⟩⟩

/-- `CC_TX_table_t` from `can_core.h`.  `Data` is the externally-owned payload
buffer's contents; `hasParser` models `Parser != NULL` (the optional
payload-transform callback). -/
structure CC_TX_table_t where
  SlotNo : Nat
  ID : Nat
  Data : List Nat
  DLC : Nat
  IDE_flag : Nat
  SendFreq : Nat
  hasParser : Bool
  LastTick : Nat
deriving DecidableEq

/-- `CC_MsgRegStatus_t` from `can_core.h`. -/
inductive CC_MsgRegStatus_t where
  | CC_MSG_UNREG
  | CC_MSG_REG
deriving DecidableEq

/-- `CC_BusIsFree_t` from `can_core.h`. -/
inductive CC_BusIsFree_t where
  | CC_BUS_BUSY
  | CC_BUS_FREE
deriving DecidableEq

/-- Observable events of the RX instance: buffer stores (`enq`), drain-loop
dequeues (`deq`), and the three callback seams. -/
inductive CC_RX_event where
  | enq (msg : CC_RX_message_t)
  | deq (msg : CC_RX_message_t)
  | parserCall (slot : Nat) (msg : CC_RX_message_t)
  | unregCall (msg : CC_RX_message_t)
  | timeoutCall (slot : Nat)
deriving DecidableEq

/-- Observable events of the TX instance. -/
inductive CC_TX_event where
  | enq (msg : CC_TX_message_t)
  | sendCall (msg : CC_TX_message_t)
  | transformCall (slot : Nat) (data : List Nat)
deriving DecidableEq

/-- `CC_RX_instance_t` from `can_core.h`.  `RxTable = none` models a NULL
table pointer; `TableSize` is the list length.  The two callback pointers are
presence flags. -/
structure CC_RX_instance_t where
  Buf : List CC_RX_message_t
  Head : Nat
  Tail : Nat
  RxTable : Option (List CC_RX_table_t)
  hasParser_unreg_msg : Bool
  hasTimeoutCallback : Bool
deriving DecidableEq

/-- `CC_TX_instance_t` from `can_core.h`.  The TX table pointer is not
NULL-checked by the source generation loop, so it is modelled as a plain list
(its length is `TableSize`). -/
structure CC_TX_instance_t where
  Buf : List CC_TX_message_t
  Head : Nat
  Tail : Nat
  TxTable : List CC_TX_table_t
  hasSendFunction : Bool
  hasBusCheck : Bool
deriving DecidableEq

/-- `CopyBuf` from `can_core.c`.  The C loop index is declared without an
initializer (`for (size_t i; i < size; i++)`), so the start value `i0` is an
explicit parameter: bytes at positions `i0 ≤ j < size` are copied from `src`,
all other bytes of `dst` are left as they were.  (With `i0 = 0` this is the
copy the function's own doc comment describes.) -/
def CopyBuf (i0 : Nat) (src dst : List Nat) (size : Nat) : List Nat :=
  dst.mapIdx (fun j x => if i0 ≤ j ∧ j < size then src.getD j 0 else x)

/-- `CC_RX_PushMsg` from `can_core.c`.  Computes `next_head` (uint16
increment, wrap at `CC_RX_BUFFER_SIZE`); a full buffer (`next_head == Tail`)
returns with no change and no event; otherwise the header fields are stored
(bit-field truncation) and the payload is copied only when `0 < DLC ≤ 8`.
Note the source never writes the slot's `Time` field. -/
def CC_RX_PushMsg (Instance : CC_RX_instance_t) (ID : Nat) (Data : List Nat)
    (DLC IDE_flag : Nat) (i0 : Nat) : CC_RX_instance_t × List CC_RX_event :=
  let next_head0 := (Instance.Head + 1) % U16_MOD
  let next_head := if CC_RX_BUFFER_SIZE ≤ next_head0 then 0 else next_head0
  if next_head = Instance.Tail then
    (Instance, [])
  else
    let slot0 := Instance.Buf.getD next_head default
    let slot1 : CC_RX_message_t :=
      { slot0 with ID := ID, DLC := DLC % 16, IDE_flag := IDE_flag % 2 }
    let slot2 :=
      if 0 < DLC ∧ DLC ≤ 8 then
        { slot1 with Data := CopyBuf i0 Data slot1.Data DLC }
      else slot1
    ({ Instance with Head := next_head, Buf := Instance.Buf.set next_head slot2 },
      [.enq slot2])

/-- Table scan of `CC_RX_MsgFromTables`: first entry whose `ID` matches and
whose `DLC` and `IDE_flag` also match fires (parser call, `LastTick` set to
the message's `Time`); an `ID`-only match falls through to the rest of the
table. -/
def CC_RX_MsgFromTables_go (Msg : CC_RX_message_t) :
    List CC_RX_table_t → CC_MsgRegStatus_t × List CC_RX_table_t × List CC_RX_event
  | [] => (.CC_MSG_UNREG, [], [])
  | e :: rest =>
    if e.ID = Msg.ID then
      if e.DLC = Msg.DLC ∧ e.IDE_flag = Msg.IDE_flag then
        (.CC_MSG_REG, { e with LastTick := Msg.Time } :: rest,
          [.parserCall e.SlotNo Msg])
      else
        let r := CC_RX_MsgFromTables_go Msg rest
        (r.1, e :: r.2.1, r.2.2)
    else
      let r := CC_RX_MsgFromTables_go Msg rest
      (r.1, e :: r.2.1, r.2.2)

/-- `CC_RX_MsgFromTables` from `can_core.c`: NULL table short-circuits to
`CC_MSG_UNREG` without reading any entry. -/
def CC_RX_MsgFromTables (Instance : CC_RX_instance_t) (Msg : CC_RX_message_t) :
    CC_MsgRegStatus_t × CC_RX_instance_t × List CC_RX_event :=
  match Instance.RxTable with
  | none => (.CC_MSG_UNREG, Instance, [])
  | some tbl =>
    let r := CC_RX_MsgFromTables_go Msg tbl
    (r.1, { Instance with RxTable := some r.2.1 }, r.2.2)

/-- Per-entry body of `CC_Timeout_Check`: entries with `TimeOut != 0` whose
age `now − LastTick` (uint32 arithmetic) reaches `TimeOut` get `LastTick`
set to `now` and, if the timeout callback is installed, a callback event. -/
def CC_Timeout_Check_entry (now : Nat) (hasCb : Bool) (e : CC_RX_table_t) :
    CC_RX_table_t × List CC_RX_event :=
  if e.TimeOut ≠ 0 ∧ u32sub now e.LastTick ≥ e.TimeOut then
    ({ e with LastTick := now }, if hasCb then [.timeoutCall e.SlotNo] else [])
  else
    (e, [])

/-- Table loop of `CC_Timeout_Check`. -/
def CC_Timeout_Check_go (now : Nat) (hasCb : Bool) :
    List CC_RX_table_t → List CC_RX_table_t × List CC_RX_event
  | [] => ([], [])
  | e :: rest =>
    let r1 := CC_Timeout_Check_entry now hasCb e
    let r2 := CC_Timeout_Check_go now hasCb rest
    (r1.1 :: r2.1, r1.2 ++ r2.2)

/-- `CC_Timeout_Check` from `can_core.c`: a NULL table does nothing. -/
def CC_Timeout_Check (now : Nat) (Instance : CC_RX_instance_t) :
    CC_RX_instance_t × List CC_RX_event :=
  match Instance.RxTable with
  | none => (Instance, [])
  | some tbl =>
    let r := CC_Timeout_Check_go now Instance.hasTimeoutCallback tbl
    ({ Instance with RxTable := some r.1 }, r.2)

/-- One iteration of the drain loop of `CC_RX_Poll`: advance `Tail` (uint16
increment, wrap at `CC_RX_BUFFER_SIZE`), dispatch `Buf[Tail]` through the
table, and route a non-registered message to the fallback handler when one is
installed. -/
def CC_RX_Poll_step (Instance : CC_RX_instance_t) :
    CC_RX_instance_t × List CC_RX_event :=
  let t0 := (Instance.Tail + 1) % U16_MOD
  let t := if CC_RX_BUFFER_SIZE ≤ t0 then 0 else t0
  let Msg := Instance.Buf.getD t default
  let inst1 := { Instance with Tail := t }
  let r := CC_RX_MsgFromTables inst1 Msg
  let unregEvs :=
    if r.1 ≠ CC_MsgRegStatus_t.CC_MSG_REG ∧ inst1.hasParser_unreg_msg then
      [CC_RX_event.unregCall Msg]
    else []
  (r.2.1, [CC_RX_event.deq Msg] ++ r.2.2 ++ unregEvs)

/-- Drain loop of `CC_RX_Poll` (`while (Head != Tail)`), with explicit fuel.
For in-range indices the loop runs `(Head − Tail) mod 32 ≤ 31` times, so the
fuel `CC_RX_BUFFER_SIZE` used by `CC_RX_Poll` never binds (see
`CC_RX_Poll_drain_complete`). -/
def CC_RX_Poll_drain : Nat → CC_RX_instance_t → CC_RX_instance_t × List CC_RX_event
  | 0, Instance => (Instance, [])
  | fuel + 1, Instance =>
    if Instance.Head = Instance.Tail then
      (Instance, [])
    else
      let r := CC_RX_Poll_step Instance
      let rest := CC_RX_Poll_drain fuel r.1
      (rest.1, r.2 ++ rest.2)

/-- `CC_RX_Poll` from `can_core.c`: timeout supervision, then the drain loop. -/
def CC_RX_Poll (now : Nat) (Instance : CC_RX_instance_t) :
    CC_RX_instance_t × List CC_RX_event :=
  let r1 := CC_Timeout_Check now Instance
  let r2 := CC_RX_Poll_drain CC_RX_BUFFER_SIZE r1.1
  (r2.1, r1.2 ++ r2.2)

/-- `CC_TX_PushMsg` from `can_core.c`.  Identical ring logic to the RX push;
note the source compares `next_head` against `CC_RX_BUFFER_SIZE` here (not
`CC_TX_BUFFER_SIZE`) — both are 32. -/
def CC_TX_PushMsg (Instance : CC_TX_instance_t) (ID : Nat) (Data : List Nat)
    (DLC IDE_flag : Nat) (i0 : Nat) : CC_TX_instance_t × List CC_TX_event :=
  let next_head0 := (Instance.Head + 1) % U16_MOD
  let next_head := if CC_RX_BUFFER_SIZE ≤ next_head0 then 0 else next_head0
  if next_head = Instance.Tail then
    (Instance, [])
  else
    let slot0 := Instance.Buf.getD next_head default
    let slot1 : CC_TX_message_t :=
      { slot0 with ID := ID, DLC := DLC % 16, IDE_flag := IDE_flag % 2 }
    let slot2 :=
      if 0 < DLC ∧ DLC ≤ 8 then
        { slot1 with Data := CopyBuf i0 Data slot1.Data DLC }
      else slot1
    ({ Instance with Head := next_head, Buf := Instance.Buf.set next_head slot2 },
      [.enq slot2])

/-- Table loop of `CC_TX_MsgFromTables`.  `Temp` is the scratch buffer
(declared uninitialized, once, before the loop — hence threaded through the
iterations); `xf` is the oracle giving the effect of an installed transform
callback on the scratch bytes (indexed by table position); `i0` models the
uninitialized `CopyBuf` counter. -/
def CC_TX_MsgFromTables_go (now i0 : Nat) (xf : Nat → List Nat → List Nat) :
    List CC_TX_table_t → Nat → List Nat → CC_TX_instance_t →
      List CC_TX_table_t × CC_TX_instance_t × List CC_TX_event
  | [], _, _, inst => ([], inst, [])
  | e :: rest, i, Temp, inst =>
    if u32sub now e.LastTick ≥ e.SendFreq then
      let Temp1 := CopyBuf i0 e.Data Temp e.DLC
      let Temp2 := if e.hasParser then xf i Temp1 else Temp1
      let xfEvs : List CC_TX_event :=
        if e.hasParser then [.transformCall e.SlotNo Temp2] else []
      let p := CC_TX_PushMsg inst e.ID Temp2 e.DLC e.IDE_flag i0
      let r := CC_TX_MsgFromTables_go now i0 xf rest (i + 1) Temp2 p.1
      ({ e with LastTick := now } :: r.1, r.2.1, xfEvs ++ p.2 ++ r.2.2)
    else
      let r := CC_TX_MsgFromTables_go now i0 xf rest (i + 1) Temp inst
      (e :: r.1, r.2.1, r.2.2)

/-- `CC_TX_MsgFromTables` from `can_core.c`: every due table entry
(`now − LastTick ≥ SendFreq`, uint32 arithmetic) gets `LastTick := now`, its
payload copied to the scratch buffer, optionally transformed, and pushed. -/
def CC_TX_MsgFromTables (now i0 : Nat) (Temp0 : List Nat)
    (xf : Nat → List Nat → List Nat) (Instance : CC_TX_instance_t) :
    CC_TX_instance_t × List CC_TX_event :=
  let r := CC_TX_MsgFromTables_go now i0 xf Instance.TxTable 0 Temp0 Instance
  ({ r.2.1 with TxTable := r.1 }, r.2.2)

/-- Flush loop of `CC_TX_Poll` (`while (Head != Tail && BusCheck() ==
CC_BUS_FREE)`), with explicit fuel and a bus-predicate oracle indexed by call
number.  The `assert(NULL != SendFunction)` sits inside the loop body, after
the `Tail` advance, and is modelled by the `Except` error. -/
def CC_TX_Poll_flush (bus : Nat → CC_BusIsFree_t) :
    Nat → Nat → CC_TX_instance_t → Except Unit (CC_TX_instance_t × List CC_TX_event)
  | 0, _, inst => .ok (inst, [])
  | fuel + 1, k, inst =>
    if inst.Head ≠ inst.Tail ∧ bus k = .CC_BUS_FREE then
      let t0 := (inst.Tail + 1) % U16_MOD
      let t := if CC_TX_BUFFER_SIZE ≤ t0 then 0 else t0
      if inst.hasSendFunction then
        let msg := inst.Buf.getD t default
        match CC_TX_Poll_flush bus fuel (k + 1) { inst with Tail := t } with
        | .error er => .error er
        | .ok r => .ok (r.1, CC_TX_event.sendCall msg :: r.2)
      else
        .error ()
    else
      .ok (inst, [])

/-- `CC_TX_Poll` from `can_core.c`: the entry assertion
`assert(Instance != NULL && BusCheck != NULL)`, then generation, then the
bus-gated flush. -/
def CC_TX_Poll (now i0 : Nat) (Temp0 : List Nat)
    (xf : Nat → List Nat → List Nat) (bus : Nat → CC_BusIsFree_t)
    (Instance : CC_TX_instance_t) :
    Except Unit (CC_TX_instance_t × List CC_TX_event) :=
  if Instance.hasBusCheck then
    let g := CC_TX_MsgFromTables now i0 Temp0 xf Instance
    match CC_TX_Poll_flush bus CC_TX_BUFFER_SIZE 0 g.1 with
    | .error er => .error er
    | .ok r => .ok (r.1, g.2 ++ r.2)
  else
    .error ()

/-- Ring distance `(h − t) mod cap`: the occupied-slot count a head/tail pair
encodes. -/
def ringDist (cap h t : Nat) : Nat := (h + cap - t) % cap

/-- Number of buffer stores among RX events. -/
def rxEnqCount (evs : List CC_RX_event) : Nat :=
  evs.countP (fun e => match e with | .enq _ => true | _ => false)

/-- Number of drain-loop dequeues among RX events. -/
def rxDeqCount (evs : List CC_RX_event) : Nat :=
  evs.countP (fun e => match e with | .deq _ => true | _ => false)

/-- Number of per-entry parser invocations among RX events. -/
def rxParserCount (evs : List CC_RX_event) : Nat :=
  evs.countP (fun e => match e with | .parserCall _ _ => true | _ => false)

/-- Number of fallback-handler invocations among RX events. -/
def rxUnregCount (evs : List CC_RX_event) : Nat :=
  evs.countP (fun e => match e with | .unregCall _ => true | _ => false)

/-- Number of timeout-callback invocations among RX events. -/
def rxTimeoutCount (evs : List CC_RX_event) : Nat :=
  evs.countP (fun e => match e with | .timeoutCall _ => true | _ => false)

/-- Number of buffer stores among TX events. -/
def txEnqCount (evs : List CC_TX_event) : Nat :=
  evs.countP (fun e => match e with | .enq _ => true | _ => false)

/-- Number of send-function invocations among TX events. -/
def txSendCount (evs : List CC_TX_event) : Nat :=
  evs.countP (fun e => match e with | .sendCall _ => true | _ => false)

/-- One producer/consumer operation on an RX instance. -/
inductive RXOp where
  | push (ID : Nat) (Data : List Nat) (DLC IDE_flag i0 : Nat)
  | poll (now : Nat)

/-- Run a sequence of operations on an RX instance, accumulating events. -/
def RX_run : List RXOp → CC_RX_instance_t → CC_RX_instance_t × List CC_RX_event
  | [], s => (s, [])
  | op :: rest, s =>
    let r := match op with
      | .push ID Data DLC IDE i0 => CC_RX_PushMsg s ID Data DLC IDE i0
      | .poll now => CC_RX_Poll now s
    let r2 := RX_run rest r.1
    (r2.1, r.2 ++ r2.2)

/-- One producer/consumer operation on a TX instance.  A poll carries the
tick value, the junk parameters, the transform oracle and the bus oracle. -/
inductive TXOp where
  | push (ID : Nat) (Data : List Nat) (DLC IDE_flag i0 : Nat)
  | poll (now i0 : Nat) (Temp0 : List Nat) (xf : Nat → List Nat → List Nat)
      (bus : Nat → CC_BusIsFree_t)

/-- Run a sequence of operations on a TX instance.  An assertion failure
(modelled `Except` error) aborts the run with the pre-poll state. -/
def TX_run : List TXOp → CC_TX_instance_t → CC_TX_instance_t × List CC_TX_event
  | [], s => (s, [])
  | op :: rest, s =>
    match op with
    | .push ID Data DLC IDE i0 =>
      let r := CC_TX_PushMsg s ID Data DLC IDE i0
      let r2 := TX_run rest r.1
      (r2.1, r.2 ++ r2.2)
    | .poll now i0 Temp0 xf bus =>
      match CC_TX_Poll now i0 Temp0 xf bus s with
      | .error _ => (s, [])
      | .ok r =>
        let r2 := TX_run rest r.1
        (r2.1, r.2 ++ r2.2)

/-- `CC_GET_TICK` in the `CC_TICK_FROM_FUNC = 1` configuration:
`(CC_get_tick != NULL) ? CC_get_tick() : ((CC_TIME_t)0)`. -/
def CC_GET_TICK_func (CC_get_tick : Option (Unit → Nat)) : Nat :=
  match CC_get_tick with
  | some f => f ()
  | none => 0

/-- `CC_GET_TICK` in the default `CC_TICK_FROM_FUNC = 0` configuration (the
value `can_core.h` hardcodes): `*(CC_tick)`.  The registered pointer's target
value is `some v`; with no registration (`CC_tick == NULL`, `none`) the
dereference has no defined result. -/
def CC_GET_TICK_var (CC_tick : Option Nat) : Option Nat := CC_tick

/-- Spec-side description of the dispatch rule: the first table entry whose
`ID`, `DLC` and `IDE_flag` all equal the frame's.  The code's nested-if scan
(`CC_RX_MsgFromTables_go`) is proved to fire exactly this entry. -/
def firstFullMatch (m : CC_RX_message_t) : List CC_RX_table_t → Option CC_RX_table_t
  | [] => none
  | e :: rest =>
    if e.ID = m.ID ∧ e.DLC = m.DLC ∧ e.IDE_flag = m.IDE_flag then some e
    else firstFullMatch m rest

/-- Iterated timeout supervision of a single entry, polled exactly `TimeOut`
ticks after each firing (the grid the recurring-timeout property describes);
no matching frame arrives in between. -/
def CC_Timeout_Check_iterate (hasCb : Bool) (T : Nat) :
    Nat → CC_RX_table_t → CC_RX_table_t × List CC_RX_event
  | 0, e => (e, [])
  | k + 1, e =>
    let r1 := CC_Timeout_Check_entry (e.LastTick + T) hasCb e
    let r2 := CC_Timeout_Check_iterate hasCb T k r1.1
    (r2.1, r1.2 ++ r2.2)

/-! Concrete states used by witnesses and counterexamples. -/

/-- A zero-initialized RX instance with no table and no callbacks. -/
def rxEmpty : CC_RX_instance_t :=
  { Buf := List.replicate 32 default, Head := 0, Tail := 0, RxTable := none,
    hasParser_unreg_msg := false, hasTimeoutCallback := false }

/-- An RX instance whose ring is full (`Head = 31`, `Tail = 0`, occupancy 31). -/
def rxFull : CC_RX_instance_t := { rxEmpty with Head := 31 }

/-- A zero-initialized TX instance with an empty table and both callbacks. -/
def txEmpty : CC_TX_instance_t :=
  { Buf := List.replicate 32 default, Head := 0, Tail := 0, TxTable := [],
    hasSendFunction := true, hasBusCheck := true }

/-- A TX instance whose ring is full. -/
def txFull : CC_TX_instance_t := { txEmpty with Head := 31 }

/-- RX table entry expecting frame `ID 1, DLC 1, standard`, timeout 10. -/
def rxC4table : CC_RX_table_t :=
  { SlotNo := 3, ID := 1, DLC := 1, IDE_flag := 0, TimeOut := 10, LastTick := 2 }

/-- Zero-initialized RX instance registered with `rxC4table`. -/
def rxC4inst : CC_RX_instance_t :=
  { rxEmpty with RxTable := some [rxC4table], hasTimeoutCallback := true }

/-- Two RX table entries sharing `ID = 5` but with different `DLC`. -/
def rxC3tbl : List CC_RX_table_t :=
  [{ SlotNo := 1, ID := 5, DLC := 2, IDE_flag := 0, TimeOut := 0, LastTick := 0 },
   { SlotNo := 2, ID := 5, DLC := 4, IDE_flag := 0, TimeOut := 0, LastTick := 0 }]

/-- A frame fully matching only the second entry of `rxC3tbl`. -/
def rxC3msg : CC_RX_message_t :=
  { ID := 5, Data := List.replicate 8 0, DLC := 4, IDE_flag := 0, Time := 0 }

/-- A frame matching `rxC3tbl` by `ID` only (`DLC = 3` matches no entry). -/
def rxC3msgB : CC_RX_message_t :=
  { ID := 5, Data := List.replicate 8 0, DLC := 3, IDE_flag := 0, Time := 0 }

/-- RX instance holding `rxC3msgB` in slot 1 (one pending frame), with the
fallback handler installed and `rxC3tbl` registered. -/
def rxC3inst : CC_RX_instance_t :=
  { Buf := (List.replicate 32 (default : CC_RX_message_t)).set 1 rxC3msgB,
    Head := 1, Tail := 0, RxTable := some rxC3tbl,
    hasParser_unreg_msg := true, hasTimeoutCallback := false }

/-- TX table entry `{id = 0x100, length = 8, period = 100}` of the scheduled
send scenario, payload bytes all `0xAB`. -/
def txEntryC6 : CC_TX_table_t :=
  { SlotNo := 1, ID := 256, Data := List.replicate 8 171, DLC := 8,
    IDE_flag := 0, SendFreq := 100, hasParser := false, LastTick := 0 }

/-- Zero-initialized TX instance registered with `txEntryC6`. -/
def txInstC6 : CC_TX_instance_t := { txEmpty with TxTable := [txEntryC6] }

/-- TX instance with a NULL send function, empty table and empty buffer. -/
def txNoSend : CC_TX_instance_t := { txEmpty with hasSendFunction := false }

/-- RX instance with two pending frames, a NULL table and the fallback
handler installed. -/
def rxC10inst : CC_RX_instance_t :=
  { rxEmpty with Head := 2, hasParser_unreg_msg := true }

/-- TX instance with a NULL bus-free predicate. -/
def txNoBus : CC_TX_instance_t := { txEmpty with hasBusCheck := false }

/-- TX instance with a NULL send function and one pending frame. -/
def txNoSendPending : CC_TX_instance_t := { txNoSend with Head := 1 }

/-- RX table entry with timeout 5 and last-seen tick 0 (for the zero-tick
degradation analysis). -/
def rxZeroTickEntry : CC_RX_table_t :=
  { SlotNo := 1, ID := 1, DLC := 1, IDE_flag := 0, TimeOut := 5, LastTick := 0 }

/-- RX table entry (slot 7) with timeout 10, last seen at tick 0. -/
def rxC5entry : CC_RX_table_t :=
  { SlotNo := 7, ID := 2, DLC := 1, IDE_flag := 0, TimeOut := 10, LastTick := 0 }

/-- RX instance registered with `rxC5entry` and a timeout callback. -/
def rxC5inst : CC_RX_instance_t :=
  { rxEmpty with RxTable := some [rxC5entry], hasTimeoutCallback := true }

/-- One generation phase (`CC_TX_MsgFromTables`) at tick `now` with fixed
benign junk values: copy counter starting at 0, zeroed scratch buffer,
identity transform oracle (no entry of the scenarios installs one). -/
def txC6gen (now : Nat) (inst : CC_TX_instance_t) :
    CC_TX_instance_t × List CC_TX_event :=
  CC_TX_MsgFromTables now 0 (List.replicate 8 0) (fun _ d => d) inst

/-- A concrete RX op sequence: two pushes, then a Poll. -/
def rxOpsC1 : List RXOp := [.push 1 [9] 1 0 0, .push 3 [7] 1 0 0, .poll 5]

/-- A concrete TX op sequence: an ad hoc push, then a Poll with the bus
always free. -/
def txOpsC1 : List TXOp :=
  [.push 2 [8] 1 0 0,
   .poll 7 0 (List.replicate 8 0) (fun _ d => d) (fun _ => .CC_BUS_FREE)]

/-! General lemmas about the ring arithmetic and the push operations. -/

theorem ringDist_lt_32 (h t : Nat) : ringDist 32 h t < 32 := by
  unfold ringDist
  omega

theorem u32sub_add_right (a T : Nat) (hT : T < U32_MOD) : u32sub (a + T) a = T := by
  unfold u32sub U32_MOD at *
  omega

theorem u32sub_self (a : Nat) : u32sub a a = 0 := by
  unfold u32sub U32_MOD
  omega

/-- `CC_RX_PushMsg` either hits a full ring (occupancy 31) and is the
identity with no event, or advances `Head` one slot (mod 32) and stores one
frame there. -/
theorem CC_RX_PushMsg_cases (s : CC_RX_instance_t) (ID : Nat) (D : List Nat)
    (DLC IDE i0 : Nat) (hH : s.Head < 32) (hT : s.Tail < 32) :
    (ringDist 32 s.Head s.Tail = 31 ∧ CC_RX_PushMsg s ID D DLC IDE i0 = (s, [])) ∨
    (ringDist 32 s.Head s.Tail < 31 ∧
      ∃ m, CC_RX_PushMsg s ID D DLC IDE i0 =
        ({ s with Head := (s.Head + 1) % 32,
                  Buf := s.Buf.set ((s.Head + 1) % 32) m }, [.enq m])) := by
  have hmod : (s.Head + 1) % U16_MOD = s.Head + 1 := by
    unfold U16_MOD
    omega
  have hnh : (if CC_RX_BUFFER_SIZE ≤ (s.Head + 1) % U16_MOD then 0
      else (s.Head + 1) % U16_MOD) = (s.Head + 1) % 32 := by
    rw [hmod]
    unfold CC_RX_BUFFER_SIZE
    split <;> omega
  by_cases hfull : (s.Head + 1) % 32 = s.Tail
  · left
    constructor
    · unfold ringDist
      omega
    · simp only [CC_RX_PushMsg, hnh, if_pos hfull]
  · right
    constructor
    · have := ringDist_lt_32 s.Head s.Tail
      unfold ringDist at *
      omega
    · refine ⟨(let slot0 := s.Buf.getD ((s.Head + 1) % 32) default
        let slot1 : CC_RX_message_t :=
          { slot0 with ID := ID, DLC := DLC % 16, IDE_flag := IDE % 2 }
        if 0 < DLC ∧ DLC ≤ 8 then
          { slot1 with Data := CopyBuf i0 D slot1.Data DLC }
        else slot1), ?_⟩
      simp only [CC_RX_PushMsg, hnh, if_neg hfull]

/-- `CC_TX_PushMsg`: same case split as the RX push. -/
theorem CC_TX_PushMsg_cases (s : CC_TX_instance_t) (ID : Nat) (D : List Nat)
    (DLC IDE i0 : Nat) (hH : s.Head < 32) (hT : s.Tail < 32) :
    (ringDist 32 s.Head s.Tail = 31 ∧ CC_TX_PushMsg s ID D DLC IDE i0 = (s, [])) ∨
    (ringDist 32 s.Head s.Tail < 31 ∧
      ∃ m, CC_TX_PushMsg s ID D DLC IDE i0 =
        ({ s with Head := (s.Head + 1) % 32,
                  Buf := s.Buf.set ((s.Head + 1) % 32) m }, [.enq m])) := by
  have hmod : (s.Head + 1) % U16_MOD = s.Head + 1 := by
    unfold U16_MOD
    omega
  have hnh : (if CC_RX_BUFFER_SIZE ≤ (s.Head + 1) % U16_MOD then 0
      else (s.Head + 1) % U16_MOD) = (s.Head + 1) % 32 := by
    rw [hmod]
    unfold CC_RX_BUFFER_SIZE
    split <;> omega
  by_cases hfull : (s.Head + 1) % 32 = s.Tail
  · left
    constructor
    · unfold ringDist
      omega
    · simp only [CC_TX_PushMsg, hnh, if_pos hfull]
  · right
    constructor
    · have := ringDist_lt_32 s.Head s.Tail
      unfold ringDist at *
      omega
    · refine ⟨(let slot0 := s.Buf.getD ((s.Head + 1) % 32) default
        let slot1 : CC_TX_message_t :=
          { slot0 with ID := ID, DLC := DLC % 16, IDE_flag := IDE % 2 }
        if 0 < DLC ∧ DLC ≤ 8 then
          { slot1 with Data := CopyBuf i0 D slot1.Data DLC }
        else slot1), ?_⟩
      simp only [CC_TX_PushMsg, hnh, if_neg hfull]

/-- C2: Calling PushFrame (CC_RX_PushMsg or CC_TX_PushMsg) when the ring
buffer is full (the incremented head index equals Tail, i.e. occupancy is
31 = capacity − 1) leaves Head, Tail, and every stored frame unchanged: the
whole instance is returned as-is, the new frame is silently dropped, the
oldest stored frame is not overwritten, and no error or event is signaled. -/
theorem CC_C2_drop_on_full (s : CC_RX_instance_t) (t : CC_TX_instance_t)
    (ID : Nat) (D : List Nat) (DLC IDE i0 : Nat)
    (ID' : Nat) (D' : List Nat) (DLC' IDE' i0' : Nat)
    (hsH : s.Head < 32) (hsT : s.Tail < 32)
    (hs : ringDist 32 s.Head s.Tail = 31)
    (htH : t.Head < 32) (htT : t.Tail < 32)
    (ht : ringDist 32 t.Head t.Tail = 31) :
    CC_RX_PushMsg s ID D DLC IDE i0 = (s, []) ∧
    CC_TX_PushMsg t ID' D' DLC' IDE' i0' = (t, []) := by
  constructor
  · rcases CC_RX_PushMsg_cases s ID D DLC IDE i0 hsH hsT with h | h
    · exact h.2
    · omega
  · rcases CC_TX_PushMsg_cases t ID' D' DLC' IDE' i0' htH htT with h | h
    · exact h.2
    · omega

/-- Witness for C2 at a concrete full RX instance and full TX instance. -/
theorem CC_C2_drop_on_full_witness :
    (rxFull.Head < 32 ∧ rxFull.Tail < 32 ∧ ringDist 32 rxFull.Head rxFull.Tail = 31 ∧
     txFull.Head < 32 ∧ txFull.Tail < 32 ∧ ringDist 32 txFull.Head txFull.Tail = 31) ∧
    (CC_RX_PushMsg rxFull 7 [1] 1 0 0 = (rxFull, []) ∧
     CC_TX_PushMsg txFull 9 [2] 1 0 0 = (txFull, [])) :=
  ⟨by decide,
    CC_C2_drop_on_full rxFull txFull 7 [1] 1 0 0 9 [2] 1 0 0
      (by decide) (by decide) (by decide) (by decide) (by decide) (by decide)⟩

/-! C7: behavior with no registered tick source. -/

/-- Counterexample to C7 as stated.  In the configuration `can_core.h`
actually selects (`CC_TICK_FROM_FUNC = 0`), a tick read with no registered
source is `*(NULL)` — it has no defined value, in particular not zero.  And
a zero tick does not make checks "immediately due": the entry
`rxZeroTickEntry` (`TimeOut = 5`, `LastTick = 0`) does not fire at tick 0,
and the scheduled-send entry `txEntryC6` (`SendFreq = 100`, `LastTick = 0`)
is not due at tick 0 (no entry is enqueued and the table is unchanged). -/
theorem CC_C7_counterexample :
    CC_GET_TICK_var none ≠ some 0 ∧
    CC_Timeout_Check_entry 0 true rxZeroTickEntry = (rxZeroTickEntry, []) ∧
    CC_TX_MsgFromTables 0 0 (List.replicate 8 0) (fun _ d => d) txInstC6
      = (txInstC6, []) := by
  decide

/-- C7 (amended): only the `CC_TICK_FROM_FUNC = 1` configuration yields zero
on every read with no registered source; the default variable configuration
dereferences NULL (no defined value).  A tick frozen at zero does not make
checks immediately due: an entry whose `LastTick` is zero (the
zero-initialized state) and whose timeout/period is nonzero never satisfies
`now − LastTick ≥ threshold`, so it never fires. -/
theorem CC_C7_amended (cb : Bool) (e : CC_RX_table_t) (eT : CC_TX_table_t)
    (inst : CC_TX_instance_t) (i0 : Nat) (Temp0 : List Nat)
    (xf : Nat → List Nat → List Nat)
    (h1 : e.LastTick = 0) (h2 : e.TimeOut ≠ 0)
    (h3 : eT.LastTick = 0) (h4 : eT.SendFreq ≠ 0)
    (htbl : inst.TxTable = [eT]) :
    CC_GET_TICK_func none = 0 ∧
    CC_GET_TICK_var none = none ∧
    CC_Timeout_Check_entry 0 cb e = (e, []) ∧
    CC_TX_MsgFromTables 0 i0 Temp0 xf inst = (inst, []) := by
  have hz : u32sub 0 0 = 0 := u32sub_self 0
  refine ⟨rfl, rfl, ?_, ?_⟩
  · unfold CC_Timeout_Check_entry
    rw [if_neg]
    rintro ⟨-, hB⟩
    rw [h1, hz] at hB
    omega
  · have hc : ¬ (u32sub 0 eT.LastTick ≥ eT.SendFreq) := by
      rw [h3, hz]
      omega
    unfold CC_TX_MsgFromTables
    rw [htbl]
    simp only [CC_TX_MsgFromTables_go, if_neg hc]
    rw [← htbl]

/-- Witness for the amended C7 at `rxZeroTickEntry` / `txEntryC6`. -/
theorem CC_C7_amended_witness :
    (rxZeroTickEntry.LastTick = 0 ∧ rxZeroTickEntry.TimeOut ≠ 0 ∧
     txEntryC6.LastTick = 0 ∧ txEntryC6.SendFreq ≠ 0 ∧
     txInstC6.TxTable = [txEntryC6]) ∧
    (CC_GET_TICK_func none = 0 ∧
     CC_GET_TICK_var none = none ∧
     CC_Timeout_Check_entry 0 true rxZeroTickEntry = (rxZeroTickEntry, []) ∧
     CC_TX_MsgFromTables 0 0 (List.replicate 8 0) (fun _ d => d) txInstC6
       = (txInstC6, [])) :=
  ⟨by decide,
    CC_C7_amended true rxZeroTickEntry txEntryC6 txInstC6 0 (List.replicate 8 0)
      (fun _ d => d) (by decide) (by decide) (by decide) (by decide) rfl⟩

/-! C9: assertion coverage of missing TX callbacks. -/

theorem CC_TX_PushMsg_pres (inst : CC_TX_instance_t) (ID : Nat) (D : List Nat)
    (DLC IDE i0 : Nat) :
    (CC_TX_PushMsg inst ID D DLC IDE i0).1.Tail = inst.Tail ∧
    (CC_TX_PushMsg inst ID D DLC IDE i0).1.TxTable = inst.TxTable ∧
    (CC_TX_PushMsg inst ID D DLC IDE i0).1.hasSendFunction = inst.hasSendFunction ∧
    (CC_TX_PushMsg inst ID D DLC IDE i0).1.hasBusCheck = inst.hasBusCheck := by
  by_cases hc : (if CC_RX_BUFFER_SIZE ≤ (inst.Head + 1) % U16_MOD then 0
      else (inst.Head + 1) % U16_MOD) = inst.Tail
  · simp [CC_TX_PushMsg, if_pos hc]
  · simp [CC_TX_PushMsg, if_neg hc]

theorem CC_TX_MsgFromTables_go_pres (now i0 : Nat) (xf : Nat → List Nat → List Nat) :
    ∀ (tbl : List CC_TX_table_t) (i : Nat) (Temp : List Nat) (inst : CC_TX_instance_t),
      (CC_TX_MsgFromTables_go now i0 xf tbl i Temp inst).2.1.Tail = inst.Tail ∧
      (CC_TX_MsgFromTables_go now i0 xf tbl i Temp inst).2.1.TxTable = inst.TxTable ∧
      (CC_TX_MsgFromTables_go now i0 xf tbl i Temp inst).2.1.hasSendFunction
        = inst.hasSendFunction ∧
      (CC_TX_MsgFromTables_go now i0 xf tbl i Temp inst).2.1.hasBusCheck
        = inst.hasBusCheck := by
  intro tbl
  induction tbl with
  | nil => intro i Temp inst; simp [CC_TX_MsgFromTables_go]
  | cons e rest ih =>
    intro i Temp inst
    by_cases hdue : u32sub now e.LastTick ≥ e.SendFreq
    · have hp := CC_TX_PushMsg_pres inst e.ID
        (if e.hasParser then xf i (CopyBuf i0 e.Data Temp e.DLC)
         else CopyBuf i0 e.Data Temp e.DLC) e.DLC e.IDE_flag i0
      have hr := ih (i + 1)
        (if e.hasParser then xf i (CopyBuf i0 e.Data Temp e.DLC)
         else CopyBuf i0 e.Data Temp e.DLC)
        (CC_TX_PushMsg inst e.ID
          (if e.hasParser then xf i (CopyBuf i0 e.Data Temp e.DLC)
           else CopyBuf i0 e.Data Temp e.DLC) e.DLC e.IDE_flag i0).1
      simp only [CC_TX_MsgFromTables_go, if_pos hdue]
      exact ⟨by rw [hr.1, hp.1], by rw [hr.2.1, hp.2.1],
        by rw [hr.2.2.1, hp.2.2.1], by rw [hr.2.2.2, hp.2.2.2]⟩
    · have hr := ih (i + 1) Temp inst
      simp only [CC_TX_MsgFromTables_go, if_neg hdue]
      exact hr

theorem CC_TX_MsgFromTables_pres (now i0 : Nat) (Temp0 : List Nat)
    (xf : Nat → List Nat → List Nat) (inst : CC_TX_instance_t) :
    (CC_TX_MsgFromTables now i0 Temp0 xf inst).1.Tail = inst.Tail ∧
    (CC_TX_MsgFromTables now i0 Temp0 xf inst).1.hasSendFunction
      = inst.hasSendFunction ∧
    (CC_TX_MsgFromTables now i0 Temp0 xf inst).1.hasBusCheck = inst.hasBusCheck := by
  have h := CC_TX_MsgFromTables_go_pres now i0 xf inst.TxTable 0 Temp0 inst
  simp only [CC_TX_MsgFromTables]
  exact ⟨h.1, h.2.2.1, h.2.2.2⟩

/-- With no send function installed, one step of the flush loop either fails
the in-loop assertion (buffer nonempty and bus free) or exits normally. -/
theorem CC_TX_Poll_flush_noSend (bus : Nat → CC_BusIsFree_t) (fuel k : Nat)
    (inst : CC_TX_instance_t) (h : inst.hasSendFunction = false) :
    CC_TX_Poll_flush bus (fuel + 1) k inst =
      if inst.Head ≠ inst.Tail ∧ bus k = .CC_BUS_FREE then .error ()
      else .ok (inst, []) := by
  simp only [CC_TX_Poll_flush, h]
  split <;> simp

/-- Counterexample to C9 as stated: a TX instance with a NULL send function
but an empty buffer (and an installed bus-free predicate) completes
`CC_TX_Poll` normally — the `assert(NULL != SendFunction)` sits inside the
flush loop body, which never executes, so no fatal violation occurs for this
state. -/
theorem CC_C9_counterexample :
    CC_TX_Poll 0 0 (List.replicate 8 0) (fun _ d => d) (fun _ => .CC_BUS_FREE)
      txNoSend = .ok (txNoSend, []) := by
  rfl

/-- C9 (amended): a NULL bus-free predicate always trips the entry assertion
of `CC_TX_Poll`, for every state; a NULL send function trips the in-loop
assertion exactly when the flush loop runs its body at least once — i.e. when
the buffer is nonempty after the generation phase and the bus-free predicate
reports free on its first call — and otherwise Poll completes with no
violation. -/
theorem CC_C9_amended (now i0 : Nat) (Temp0 : List Nat)
    (xf : Nat → List Nat → List Nat) (bus : Nat → CC_BusIsFree_t)
    (inst : CC_TX_instance_t) :
    (inst.hasBusCheck = false → CC_TX_Poll now i0 Temp0 xf bus inst = .error ()) ∧
    (inst.hasBusCheck = true → inst.hasSendFunction = false →
      (CC_TX_Poll now i0 Temp0 xf bus inst = .error () ↔
        ((CC_TX_MsgFromTables now i0 Temp0 xf inst).1.Head ≠
            (CC_TX_MsgFromTables now i0 Temp0 xf inst).1.Tail ∧
          bus 0 = .CC_BUS_FREE))) := by
  constructor
  · intro h
    simp [CC_TX_Poll, h]
  · intro hbc hsf
    have hg : (CC_TX_MsgFromTables now i0 Temp0 xf inst).1.hasSendFunction = false := by
      rw [(CC_TX_MsgFromTables_pres now i0 Temp0 xf inst).2.1, hsf]
    unfold CC_TX_Poll
    simp only [hbc, if_true]
    rw [show CC_TX_BUFFER_SIZE = 31 + 1 from rfl,
      CC_TX_Poll_flush_noSend bus 31 0 _ hg]
    by_cases hc : ((CC_TX_MsgFromTables now i0 Temp0 xf inst).1.Head ≠
        (CC_TX_MsgFromTables now i0 Temp0 xf inst).1.Tail ∧ bus 0 = .CC_BUS_FREE)
    · rw [if_pos hc]
      simp [hc]
    · rw [if_neg hc]
      simp [hc]

/-- Witness for the amended C9: a NULL bus check always asserts; with the
bus check installed and the send function NULL, a pending frame asserts. -/
theorem CC_C9_amended_witness :
    (CC_TX_Poll 0 0 (List.replicate 8 0) (fun _ d => d) (fun _ => .CC_BUS_FREE)
        txNoBus = .error ()) ∧
    (CC_TX_Poll 0 0 (List.replicate 8 0) (fun _ d => d) (fun _ => .CC_BUS_FREE)
        txNoSendPending = .error () ↔
      ((CC_TX_MsgFromTables 0 0 (List.replicate 8 0) (fun _ d => d)
          txNoSendPending).1.Head ≠
        (CC_TX_MsgFromTables 0 0 (List.replicate 8 0) (fun _ d => d)
          txNoSendPending).1.Tail ∧
        (fun _ => CC_BusIsFree_t.CC_BUS_FREE) 0 = .CC_BUS_FREE)) :=
  ⟨(CC_C9_amended 0 0 (List.replicate 8 0) (fun _ d => d)
      (fun _ => .CC_BUS_FREE) txNoBus).1 rfl,
   (CC_C9_amended 0 0 (List.replicate 8 0) (fun _ d => d)
      (fun _ => .CC_BUS_FREE) txNoSendPending).2 rfl rfl⟩

/-! C8: push with in-range and out-of-range DLC. -/

/-- C8 evaluated at its failing input.  Out-of-range DLC behaves as claimed:
pushing `DLC = 9` stores the header fields as given, copies no payload bytes
and is not rejected (`Head` advances).  But for in-range `DLC = 4` the number
of bytes copied depends on the start value of `CopyBuf`'s uninitialized loop
counter: with junk start `4` the stored payload is untouched (zero of the
four bytes are copied), with start `0` all four are copied — contradicting
the claim that exactly `DLC` bytes are always copied. -/
theorem CC_C8_uninit_copy :
    (((CC_RX_PushMsg rxEmpty 5 [1, 2, 3, 4] 4 0 4).1.Buf.getD 1 default).Data
        = List.replicate 8 0) ∧
    ((CC_RX_PushMsg rxEmpty 5 [1, 2, 3, 4] 4 0 4).1.Head = 1) ∧
    (((CC_RX_PushMsg rxEmpty 5 [1, 2, 3, 4] 4 0 4).1.Buf.getD 1 default).ID = 5) ∧
    (((CC_RX_PushMsg rxEmpty 5 [1, 2, 3, 4] 4 0 4).1.Buf.getD 1 default).DLC = 4) ∧
    (((CC_RX_PushMsg rxEmpty 5 [1, 2, 3, 4] 4 0 0).1.Buf.getD 1 default).Data
        = [1, 2, 3, 4, 0, 0, 0, 0]) ∧
    ((CC_RX_PushMsg rxEmpty 7 [1, 2, 3, 4] 9 1 0).1.Head = 1) ∧
    ((CC_RX_PushMsg rxEmpty 7 [1, 2, 3, 4] 9 1 0).1.Buf.getD 1 default
        = { ID := 7, Data := List.replicate 8 0, DLC := 9, IDE_flag := 1,
            Time := 0 }) := by
  decide

/-! C4: the receive timestamp is never recorded. -/

/-- C4 evaluated at its failing input.  A frame (`ID 1, DLC 1, standard`)
received at tick 5 and fully matching `rxC4table` is dispatched by
`CC_RX_Poll` (exactly one parser call), but the entry's `LastTick` becomes
`0` — the stale `Time` of the zero-initialized buffer slot, which
`CC_RX_PushMsg` never writes — and not the receipt timestamp `5`.  The next
timeout check therefore measures age from 0, not from the receipt. -/
theorem CC_C4_time_never_recorded :
    ((CC_RX_Poll 5 (CC_RX_PushMsg rxC4inst 1 [9] 1 0 0).1).1.RxTable
        = some [{ rxC4table with LastTick := 0 }]) ∧
    (rxParserCount (CC_RX_Poll 5 (CC_RX_PushMsg rxC4inst 1 [9] 1 0 0).1).2 = 1) ∧
    ¬ ((CC_RX_Poll 5 (CC_RX_PushMsg rxC4inst 1 [9] 1 0 0).1).1.RxTable
        = some [{ rxC4table with LastTick := 5 }]) := by
  decide

/-! C5: recurring timeout supervision. -/

/-- A due entry fires: `LastTick := now`, callback event with the slot id. -/
theorem CC_Timeout_Check_entry_fires (slot id dlc ide T L now : Nat)
    (hT0 : T ≠ 0) (hdue : u32sub now L ≥ T) :
    CC_Timeout_Check_entry now true ⟨slot, id, dlc, ide, T, L⟩
      = (⟨slot, id, dlc, ide, T, now⟩, [.timeoutCall slot]) := by
  unfold CC_Timeout_Check_entry
  rw [if_pos ⟨hT0, hdue⟩]
  rfl

/-- Iterating the supervision exactly `TimeOut` ticks after each firing makes
the entry fire every time: `k` rounds produce `k` callback events and advance
`LastTick` by `k * TimeOut`. -/
theorem CC_Timeout_Check_iterate_fires (slot id dlc ide T : Nat)
    (hT0 : T ≠ 0) (hTM : T < U32_MOD) :
    ∀ (k L : Nat),
      CC_Timeout_Check_iterate true T k ⟨slot, id, dlc, ide, T, L⟩
        = (⟨slot, id, dlc, ide, T, L + k * T⟩,
            List.replicate k (.timeoutCall slot)) := by
  intro k
  induction k with
  | zero =>
    intro L
    simp [CC_Timeout_Check_iterate]
  | succ k ih =>
    intro L
    have hdue : u32sub (L + T) L ≥ T := by
      rw [u32sub_add_right L T hTM]
    have hfire := CC_Timeout_Check_entry_fires slot id dlc ide T L (L + T) hT0 hdue
    simp only [CC_Timeout_Check_iterate]
    rw [show (⟨slot, id, dlc, ide, T, L⟩ : CC_RX_table_t).LastTick + T = L + T from rfl,
      hfire]
    rw [ih (L + T)]
    rw [show L + T + k * T = L + (k + 1) * T by ring]
    simp [List.replicate_succ]

/-- C5: In the timeout phase of `CC_RX_Poll` (`CC_Timeout_Check`), an entry
with nonzero `TimeOut` whose age `now − LastTick` (uint32 arithmetic) reaches
`TimeOut` gets `LastTick := now` and the timeout callback invoked with its
slot number — both at the entry level and through `CC_Timeout_Check` on an
instance holding the entry; and, absent any matching frame, supervising the
entry again `TimeOut` ticks after each firing fires every time: `k` further
rounds give exactly `k` callback events — a repeating signal, not one-shot. -/
theorem CC_C5_recurring_timeout (slot id dlc ide T L now k : Nat)
    (s : CC_RX_instance_t)
    (hT0 : T ≠ 0) (hTM : T < U32_MOD) (hdue : u32sub now L ≥ T)
    (htbl : s.RxTable = some [⟨slot, id, dlc, ide, T, L⟩])
    (hcb : s.hasTimeoutCallback = true) :
    CC_Timeout_Check_entry now true ⟨slot, id, dlc, ide, T, L⟩
      = (⟨slot, id, dlc, ide, T, now⟩, [.timeoutCall slot]) ∧
    CC_Timeout_Check now s
      = ({ s with RxTable := some [⟨slot, id, dlc, ide, T, now⟩] },
          [.timeoutCall slot]) ∧
    CC_Timeout_Check_iterate true T k ⟨slot, id, dlc, ide, T, now⟩
      = (⟨slot, id, dlc, ide, T, now + k * T⟩,
          List.replicate k (.timeoutCall slot)) := by
  have hfire := CC_Timeout_Check_entry_fires slot id dlc ide T L now hT0 hdue
  refine ⟨hfire, ?_, CC_Timeout_Check_iterate_fires slot id dlc ide T hT0 hTM k now⟩
  unfold CC_Timeout_Check
  rw [htbl]
  simp only [CC_Timeout_Check_go, hcb, hfire]
  rfl

/-- Witness for C5: entry `rxC5entry` (timeout 10, last seen 0) supervised at
tick 25 fires, and three further rounds each fire again. -/
theorem CC_C5_recurring_timeout_witness :
    ((10 : Nat) ≠ 0 ∧ (10 : Nat) < U32_MOD ∧ u32sub 25 0 ≥ 10 ∧
     rxC5inst.RxTable = some [⟨7, 2, 1, 0, 10, 0⟩] ∧
     rxC5inst.hasTimeoutCallback = true) ∧
    (CC_Timeout_Check_entry 25 true ⟨7, 2, 1, 0, 10, 0⟩
        = (⟨7, 2, 1, 0, 10, 25⟩, [.timeoutCall 7]) ∧
     CC_Timeout_Check 25 rxC5inst
        = ({ rxC5inst with RxTable := some [⟨7, 2, 1, 0, 10, 25⟩] },
            [.timeoutCall 7]) ∧
     CC_Timeout_Check_iterate true 10 3 ⟨7, 2, 1, 0, 10, 25⟩
        = (⟨7, 2, 1, 0, 10, 25 + 3 * 10⟩,
            List.replicate 3 (.timeoutCall 7))) :=
  ⟨by decide,
    CC_C5_recurring_timeout 7 2 1 0 10 0 25 3 rxC5inst
      (by decide) (by decide) (by decide) (by decide) (by decide)⟩

/-! C3: exact-match dispatch. -/

/-- The nested-if table scan agrees with the spec-side first-full-match rule:
the scan reports `CC_MSG_REG` exactly when a fully matching entry exists, and
its parser events are exactly one call to the first fully matching entry (or
none). -/
theorem CC_RX_MsgFromTables_go_spec (m : CC_RX_message_t) :
    ∀ tbl : List CC_RX_table_t,
      ((CC_RX_MsgFromTables_go m tbl).1 = .CC_MSG_REG ↔
        (firstFullMatch m tbl).isSome) ∧
      (CC_RX_MsgFromTables_go m tbl).2.2 =
        (match firstFullMatch m tbl with
         | some e => [CC_RX_event.parserCall e.SlotNo m]
         | none => []) := by
  intro tbl
  induction tbl with
  | nil => simp [CC_RX_MsgFromTables_go, firstFullMatch]
  | cons e rest ih =>
    by_cases hid : e.ID = m.ID
    · by_cases hattr : e.DLC = m.DLC ∧ e.IDE_flag = m.IDE_flag
      · have hfm : e.ID = m.ID ∧ e.DLC = m.DLC ∧ e.IDE_flag = m.IDE_flag :=
          ⟨hid, hattr⟩
        simp [CC_RX_MsgFromTables_go, firstFullMatch, if_pos hid, if_pos hattr,
          if_pos hfm]
      · have hfm : ¬ (e.ID = m.ID ∧ e.DLC = m.DLC ∧ e.IDE_flag = m.IDE_flag) := by
          intro h
          exact hattr h.2
        simp only [CC_RX_MsgFromTables_go, firstFullMatch, if_pos hid,
          if_neg hattr, if_neg hfm]
        exact ih
    · have hfm : ¬ (e.ID = m.ID ∧ e.DLC = m.DLC ∧ e.IDE_flag = m.IDE_flag) := by
        intro h
        exact hid h.1
      simp only [CC_RX_MsgFromTables_go, firstFullMatch, if_neg hid, if_neg hfm]
      exact ih

/-- `CC_RX_MsgFromTables` on an instance with a registered table, expressed
through the table scan. -/
theorem CC_RX_MsgFromTables_eq (s : CC_RX_instance_t) (m : CC_RX_message_t)
    (tbl : List CC_RX_table_t) (htbl : s.RxTable = some tbl) :
    CC_RX_MsgFromTables s m =
      ((CC_RX_MsgFromTables_go m tbl).1,
        { s with RxTable := some (CC_RX_MsgFromTables_go m tbl).2.1 },
        (CC_RX_MsgFromTables_go m tbl).2.2) := by
  unfold CC_RX_MsgFromTables
  rw [htbl]

/-- C3: a dequeued frame invokes the parser of exactly one table entry — the
first entry whose `ID`, `DLC` and `IDE_flag` all equal the frame's (so of two
entries sharing an `ID` but differing in length/mode, only the fully matching
one fires); and a frame whose `ID` matches entries while `DLC`/`IDE` matches
none is reported unregistered and, in the drain step of `CC_RX_Poll`, routed
to the fallback handler with the raw frame. -/
theorem CC_C3_exact_match_dispatch (s : CC_RX_instance_t)
    (tbl : List CC_RX_table_t) (m : CC_RX_message_t)
    (htbl : s.RxTable = some tbl) :
    ((CC_RX_MsgFromTables s m).2.2 =
      (match firstFullMatch m tbl with
       | some e => [CC_RX_event.parserCall e.SlotNo m]
       | none => [])) ∧
    ((CC_RX_MsgFromTables s m).1 = .CC_MSG_REG ↔
      (firstFullMatch m tbl).isSome) ∧
    ((∃ e ∈ tbl, e.ID = m.ID) → firstFullMatch m tbl = none →
      s.hasParser_unreg_msg = true →
      s.Buf.getD (if CC_RX_BUFFER_SIZE ≤ (s.Tail + 1) % U16_MOD then 0
        else (s.Tail + 1) % U16_MOD) default = m →
      (CC_RX_Poll_step s).2 = [.deq m, .unregCall m]) := by
  have hgo := CC_RX_MsgFromTables_go_spec m tbl
  have heq := CC_RX_MsgFromTables_eq s m tbl htbl
  refine ⟨by rw [heq]; exact hgo.2, by rw [heq]; exact hgo.1, ?_⟩
  intro hex hnone hunreg hmsg
  have hstatus : (CC_RX_MsgFromTables_go m tbl).1 = .CC_MSG_UNREG := by
    cases hst : (CC_RX_MsgFromTables_go m tbl).1
    · rfl
    · have := hgo.1.mp hst
      rw [hnone] at this
      simp at this
  have hstep := CC_RX_MsgFromTables_eq
    { s with Tail := (if CC_RX_BUFFER_SIZE ≤ (s.Tail + 1) % U16_MOD then 0
        else (s.Tail + 1) % U16_MOD) } m tbl htbl
  simp only [CC_RX_Poll_step, hmsg]
  rw [hstep]
  simp [hstatus, hunreg, hnone, hgo.2]

/-- Witness for C3: `rxC3tbl` holds two entries with `ID = 5` and `DLC` 2
resp. 4; the frame `rxC3msg` (`DLC = 4`) fires only the second entry, and the
frame `rxC3msgB` (`DLC = 3`) matches by `ID` only and is routed to the
fallback handler by the drain step of `rxC3inst`. -/
theorem CC_C3_exact_match_dispatch_witness :
    (rxC3inst.RxTable = some rxC3tbl ∧
     firstFullMatch rxC3msg rxC3tbl = some (rxC3tbl.getD 1 default) ∧
     (CC_RX_MsgFromTables rxC3inst rxC3msg).2.2
        = [.parserCall 2 rxC3msg] ∧
     ((CC_RX_MsgFromTables rxC3inst rxC3msg).1 = .CC_MSG_REG ↔
        (firstFullMatch rxC3msg rxC3tbl).isSome)) ∧
    ((∃ e ∈ rxC3tbl, e.ID = rxC3msgB.ID) ∧
     firstFullMatch rxC3msgB rxC3tbl = none ∧
     (CC_RX_Poll_step rxC3inst).2 = [.deq rxC3msgB, .unregCall rxC3msgB]) := by
  have h := CC_C3_exact_match_dispatch rxC3inst rxC3tbl rxC3msg rfl
  have hB := CC_C3_exact_match_dispatch rxC3inst rxC3tbl rxC3msgB rfl
  refine ⟨⟨rfl, by decide, ?_, h.2.1⟩,
    ⟨⟨rxC3tbl.getD 0 default, by decide, by decide⟩, by decide, ?_⟩⟩
  · rw [h.1]
    decide
  · exact hB.2.2 ⟨rxC3tbl.getD 0 default, by decide, by decide⟩ (by decide)
      (by decide) (by decide)

/-! C6: scheduled-send grid. -/

/-- Counterexample to C6 as stated.  Entry `txEntryC6` has period 100 and
last-sent 0.  A single (late) Poll at tick 150 fires and sets last-sent to
the firing tick 150; the claimed fixed grid demands the next due tick
`T0 + 2P = 200`, but the generation phase at 200 enqueues nothing, while at
250 it fires — the schedule drifted with the Poll call jitter. -/
theorem CC_C6_counterexample :
    txEnqCount (txC6gen 150 txInstC6).2 = 1 ∧
    (txC6gen 150 txInstC6).1.TxTable = [{ txEntryC6 with LastTick := 150 }] ∧
    txEnqCount (txC6gen 200 (txC6gen 150 txInstC6).1).2 = 0 ∧
    txEnqCount (txC6gen 250 (txC6gen 150 txInstC6).1).2 = 1 := by
  decide

/-- C6 (amended): a TX table entry with period `P` and last-sent `T0` becomes
due when `now − T0 ≥ P` (uint32 arithmetic); upon firing, last-sent becomes
the firing tick, so the next due tick is `firing tick + P` — the schedule
drifts when Poll runs late rather than staying on a fixed `T0 + kP` grid.
For the scenario entry `{id = 0x100, length = 8, period = 100}` with the
generation phase run at ticks 0, 50, 100, 150, exactly one frame is
enqueued, at tick 100, and the next due tick is 200. -/
theorem CC_C6_scheduled_send (e : CC_TX_table_t) (inst : CC_TX_instance_t)
    (now i0 : Nat) (Temp0 : List Nat) (xf : Nat → List Nat → List Nat)
    (htbl : inst.TxTable = [e]) :
    (u32sub now e.LastTick ≥ e.SendFreq →
      (CC_TX_MsgFromTables now i0 Temp0 xf inst).1.TxTable
        = [{ e with LastTick := now }]) ∧
    (¬ (u32sub now e.LastTick ≥ e.SendFreq) →
      CC_TX_MsgFromTables now i0 Temp0 xf inst = (inst, [])) ∧
    (txEnqCount (txC6gen 0 txInstC6).2 = 0 ∧
     txEnqCount (txC6gen 50 (txC6gen 0 txInstC6).1).2 = 0 ∧
     txEnqCount (txC6gen 100 (txC6gen 50 (txC6gen 0 txInstC6).1).1).2 = 1 ∧
     (txC6gen 100 (txC6gen 50 (txC6gen 0 txInstC6).1).1).1.TxTable
        = [{ txEntryC6 with LastTick := 100 }] ∧
     txEnqCount
        (txC6gen 150
          (txC6gen 100 (txC6gen 50 (txC6gen 0 txInstC6).1).1).1).2 = 0) ∧
    (∀ t : Nat, 100 ≤ t → t < U32_MOD → (u32sub t 100 ≥ 100 ↔ 200 ≤ t)) := by
  refine ⟨?_, ?_, by decide, ?_⟩
  · intro hdue
    unfold CC_TX_MsgFromTables
    rw [htbl]
    simp only [CC_TX_MsgFromTables_go, if_pos hdue]
  · intro hdue
    unfold CC_TX_MsgFromTables
    rw [htbl]
    simp only [CC_TX_MsgFromTables_go, if_neg hdue]
    rw [← htbl]
  · intro t h1 h2
    unfold u32sub U32_MOD at *
    omega

/-- Witness for the amended C6: `txEntryC6` in `txInstC6` is due at tick 100
(firing and rearming to 100) and not due at tick 50 (generation no-op). -/
theorem CC_C6_scheduled_send_witness :
    (txInstC6.TxTable = [txEntryC6] ∧
     u32sub 100 txEntryC6.LastTick ≥ txEntryC6.SendFreq ∧
     ¬ (u32sub 50 txEntryC6.LastTick ≥ txEntryC6.SendFreq)) ∧
    ((CC_TX_MsgFromTables 100 0 (List.replicate 8 0) (fun _ d => d)
        txInstC6).1.TxTable = [{ txEntryC6 with LastTick := 100 }] ∧
     CC_TX_MsgFromTables 50 0 (List.replicate 8 0) (fun _ d => d) txInstC6
        = (txInstC6, [])) :=
  ⟨⟨rfl, by decide, by decide⟩,
    (CC_C6_scheduled_send txEntryC6 txInstC6 100 0 (List.replicate 8 0)
        (fun _ d => d) rfl).1 (by decide),
    (CC_C6_scheduled_send txEntryC6 txInstC6 50 0 (List.replicate 8 0)
        (fun _ d => d) rfl).2.1 (by decide)⟩

/-! Machinery for the ring-buffer invariant (C1) and NULL-table poll (C10). -/

theorem ringStepRX (h t : Nat) (hh : h < 32) (ht : t < 32) (hne : h ≠ t) :
    (if CC_RX_BUFFER_SIZE ≤ (t + 1) % U16_MOD then 0 else (t + 1) % U16_MOD)
      = (t + 1) % 32 ∧
    (t + 1) % 32 < 32 ∧
    ringDist 32 h ((t + 1) % 32) + 1 = ringDist 32 h t := by
  unfold CC_RX_BUFFER_SIZE U16_MOD ringDist
  refine ⟨?_, by omega, by omega⟩
  split <;> omega

theorem ringStepTX (h t : Nat) (hh : h < 32) (ht : t < 32) (hne : h ≠ t) :
    (if CC_TX_BUFFER_SIZE ≤ (t + 1) % U16_MOD then 0 else (t + 1) % U16_MOD)
      = (t + 1) % 32 ∧
    (t + 1) % 32 < 32 ∧
    ringDist 32 h ((t + 1) % 32) + 1 = ringDist 32 h t := by
  unfold CC_TX_BUFFER_SIZE U16_MOD ringDist
  refine ⟨?_, by omega, by omega⟩
  split <;> omega

theorem rxEnqCount_append (a b : List CC_RX_event) :
    rxEnqCount (a ++ b) = rxEnqCount a + rxEnqCount b := by
  simp [rxEnqCount, List.countP_append]

theorem rxDeqCount_append (a b : List CC_RX_event) :
    rxDeqCount (a ++ b) = rxDeqCount a + rxDeqCount b := by
  simp [rxDeqCount, List.countP_append]

theorem rxParserCount_append (a b : List CC_RX_event) :
    rxParserCount (a ++ b) = rxParserCount a + rxParserCount b := by
  simp [rxParserCount, List.countP_append]

theorem rxUnregCount_append (a b : List CC_RX_event) :
    rxUnregCount (a ++ b) = rxUnregCount a + rxUnregCount b := by
  simp [rxUnregCount, List.countP_append]

theorem rxTimeoutCount_append (a b : List CC_RX_event) :
    rxTimeoutCount (a ++ b) = rxTimeoutCount a + rxTimeoutCount b := by
  simp [rxTimeoutCount, List.countP_append]

theorem txEnqCount_append (a b : List CC_TX_event) :
    txEnqCount (a ++ b) = txEnqCount a + txEnqCount b := by
  simp [txEnqCount, List.countP_append]

theorem txSendCount_append (a b : List CC_TX_event) :
    txSendCount (a ++ b) = txSendCount a + txSendCount b := by
  simp [txSendCount, List.countP_append]

/-- Field preservation and event accounting of one table dispatch: only
`RxTable` can change, presence of the table is preserved, and the events are
at most one parser call. -/
theorem CC_RX_MsgFromTables_fields (s : CC_RX_instance_t) (m : CC_RX_message_t) :
    (CC_RX_MsgFromTables s m).2.1.Head = s.Head ∧
    (CC_RX_MsgFromTables s m).2.1.Tail = s.Tail ∧
    (CC_RX_MsgFromTables s m).2.1.Buf = s.Buf ∧
    (CC_RX_MsgFromTables s m).2.1.hasParser_unreg_msg = s.hasParser_unreg_msg ∧
    (CC_RX_MsgFromTables s m).2.1.hasTimeoutCallback = s.hasTimeoutCallback ∧
    ((CC_RX_MsgFromTables s m).2.1.RxTable = none ↔ s.RxTable = none) ∧
    rxEnqCount (CC_RX_MsgFromTables s m).2.2 = 0 ∧
    rxDeqCount (CC_RX_MsgFromTables s m).2.2 = 0 ∧
    rxTimeoutCount (CC_RX_MsgFromTables s m).2.2 = 0 ∧
    rxUnregCount (CC_RX_MsgFromTables s m).2.2 = 0 := by
  cases h : s.RxTable with
  | none => simp [CC_RX_MsgFromTables, h, rxEnqCount, rxDeqCount,
      rxTimeoutCount, rxUnregCount]
  | some tbl =>
    rw [CC_RX_MsgFromTables_eq s m tbl h]
    have hev := (CC_RX_MsgFromTables_go_spec m tbl).2
    refine ⟨rfl, rfl, rfl, rfl, rfl, by simp [h], ?_, ?_, ?_, ?_⟩ <;>
      · rw [show (((CC_RX_MsgFromTables_go m tbl).1,
            ({ s with RxTable := some (CC_RX_MsgFromTables_go m tbl).2.1 }
              : CC_RX_instance_t),
            (CC_RX_MsgFromTables_go m tbl).2.2) :
              CC_MsgRegStatus_t × CC_RX_instance_t × List CC_RX_event).2.2
            = (CC_RX_MsgFromTables_go m tbl).2.2 from rfl, hev]
        cases firstFullMatch m tbl <;> rfl

/-- One drain-loop iteration: `Tail` advances one slot, `Head`, the buffer
and the callback flags are untouched, table presence is preserved, and the
events are one dequeue plus dispatch/fallback calls. -/
theorem CC_RX_Poll_step_spec (s : CC_RX_instance_t)
    (hh : s.Head < 32) (ht : s.Tail < 32) (hne : s.Head ≠ s.Tail) :
    (CC_RX_Poll_step s).1.Head = s.Head ∧
    (CC_RX_Poll_step s).1.Tail = (s.Tail + 1) % 32 ∧
    (CC_RX_Poll_step s).1.Buf = s.Buf ∧
    (CC_RX_Poll_step s).1.hasParser_unreg_msg = s.hasParser_unreg_msg ∧
    (CC_RX_Poll_step s).1.hasTimeoutCallback = s.hasTimeoutCallback ∧
    ((CC_RX_Poll_step s).1.RxTable = none ↔ s.RxTable = none) ∧
    rxEnqCount (CC_RX_Poll_step s).2 = 0 ∧
    rxDeqCount (CC_RX_Poll_step s).2 = 1 ∧
    rxTimeoutCount (CC_RX_Poll_step s).2 = 0 := by
  have hidx := ringStepRX s.Head s.Tail hh ht hne
  have hf := CC_RX_MsgFromTables_fields
    { s with Tail := (s.Tail + 1) % 32 }
    (s.Buf.getD ((s.Tail + 1) % 32) default)
  simp only [CC_RX_Poll_step, hidx.1]
  refine ⟨hf.1, hf.2.1, hf.2.2.1, hf.2.2.2.1, hf.2.2.2.2.1,
    hf.2.2.2.2.2.1, ?_, ?_, ?_⟩ <;>
    simp only [rxEnqCount_append, rxDeqCount_append, rxTimeoutCount_append,
      hf.2.2.2.2.2.2.1, hf.2.2.2.2.2.2.2.1, hf.2.2.2.2.2.2.2.2.1] <;>
    split <;> rfl

/-- The timeout scan emits only timeout-callback events. -/
theorem CC_Timeout_Check_go_counts (now : Nat) (cb : Bool) :
    ∀ tbl : List CC_RX_table_t,
      rxEnqCount (CC_Timeout_Check_go now cb tbl).2 = 0 ∧
      rxDeqCount (CC_Timeout_Check_go now cb tbl).2 = 0 ∧
      rxParserCount (CC_Timeout_Check_go now cb tbl).2 = 0 ∧
      rxUnregCount (CC_Timeout_Check_go now cb tbl).2 = 0 := by
  intro tbl
  induction tbl with
  | nil => exact ⟨rfl, rfl, rfl, rfl⟩
  | cons e rest ih =>
    have hentry :
        rxEnqCount (CC_Timeout_Check_entry now cb e).2 = 0 ∧
        rxDeqCount (CC_Timeout_Check_entry now cb e).2 = 0 ∧
        rxParserCount (CC_Timeout_Check_entry now cb e).2 = 0 ∧
        rxUnregCount (CC_Timeout_Check_entry now cb e).2 = 0 := by
      unfold CC_Timeout_Check_entry
      split
      · cases cb <;> exact ⟨rfl, rfl, rfl, rfl⟩
      · exact ⟨rfl, rfl, rfl, rfl⟩
    simp only [CC_Timeout_Check_go, rxEnqCount_append, rxDeqCount_append,
      rxParserCount_append, rxUnregCount_append, hentry.1, hentry.2.1,
      hentry.2.2.1, hentry.2.2.2, ih.1, ih.2.1, ih.2.2.1, ih.2.2.2]
    exact ⟨trivial, trivial, trivial, trivial⟩

/-- The timeout phase touches only `RxTable` (and preserves its presence). -/
theorem CC_Timeout_Check_fields (now : Nat) (s : CC_RX_instance_t) :
    (CC_Timeout_Check now s).1.Head = s.Head ∧
    (CC_Timeout_Check now s).1.Tail = s.Tail ∧
    (CC_Timeout_Check now s).1.Buf = s.Buf ∧
    (CC_Timeout_Check now s).1.hasParser_unreg_msg = s.hasParser_unreg_msg ∧
    (CC_Timeout_Check now s).1.hasTimeoutCallback = s.hasTimeoutCallback ∧
    ((CC_Timeout_Check now s).1.RxTable = none ↔ s.RxTable = none) ∧
    rxEnqCount (CC_Timeout_Check now s).2 = 0 ∧
    rxDeqCount (CC_Timeout_Check now s).2 = 0 ∧
    rxParserCount (CC_Timeout_Check now s).2 = 0 ∧
    rxUnregCount (CC_Timeout_Check now s).2 = 0 := by
  cases h : s.RxTable with
  | none =>
    simp [CC_Timeout_Check, h, rxEnqCount, rxDeqCount, rxParserCount,
      rxUnregCount]
  | some tbl =>
    have hc := CC_Timeout_Check_go_counts now s.hasTimeoutCallback tbl
    unfold CC_Timeout_Check
    rw [h]
    exact ⟨rfl, rfl, rfl, rfl, rfl, by simp [h], hc.1, hc.2.1, hc.2.2.1,
      hc.2.2.2⟩

/-- The drain loop with enough fuel empties the ring: `Tail` ends at `Head`,
the buffer and flags are untouched, table presence is preserved, there are no
buffer stores, and the number of dequeues equals the starting occupancy. -/
theorem CC_RX_Poll_drain_spec :
    ∀ (fuel : Nat) (s : CC_RX_instance_t),
      s.Head < 32 → s.Tail < 32 → ringDist 32 s.Head s.Tail ≤ fuel →
      (CC_RX_Poll_drain fuel s).1.Head = s.Head ∧
      (CC_RX_Poll_drain fuel s).1.Tail = s.Head ∧
      (CC_RX_Poll_drain fuel s).1.Buf = s.Buf ∧
      (CC_RX_Poll_drain fuel s).1.hasParser_unreg_msg = s.hasParser_unreg_msg ∧
      (CC_RX_Poll_drain fuel s).1.hasTimeoutCallback = s.hasTimeoutCallback ∧
      ((CC_RX_Poll_drain fuel s).1.RxTable = none ↔ s.RxTable = none) ∧
      rxEnqCount (CC_RX_Poll_drain fuel s).2 = 0 ∧
      rxDeqCount (CC_RX_Poll_drain fuel s).2 = ringDist 32 s.Head s.Tail ∧
      rxTimeoutCount (CC_RX_Poll_drain fuel s).2 = 0 := by
  intro fuel
  induction fuel with
  | zero =>
    intro s hh ht hd
    have hht : s.Head = s.Tail := by
      unfold ringDist at hd
      omega
    have hd0 : ringDist 32 s.Head s.Tail = 0 := by
      unfold ringDist
      omega
    refine ⟨rfl, hht.symm, rfl, rfl, rfl, Iff.rfl, rfl, ?_, rfl⟩
    rw [hd0]
    rfl
  | succ fuel ih =>
    intro s hh ht hd
    by_cases hne : s.Head = s.Tail
    · have hd0 : ringDist 32 s.Head s.Tail = 0 := by
        unfold ringDist
        omega
      have hdra : CC_RX_Poll_drain (fuel + 1) s = (s, []) := by
        simp only [CC_RX_Poll_drain, if_pos hne]
      rw [hdra]
      refine ⟨rfl, hne.symm, rfl, rfl, rfl, Iff.rfl, rfl, ?_, rfl⟩
      rw [hd0]
      rfl
    · have hstep := CC_RX_Poll_step_spec s hh ht hne
      have hidx := ringStepRX s.Head s.Tail hh ht hne
      have ih' := ih (CC_RX_Poll_step s).1
        (by rw [hstep.1]; exact hh)
        (by rw [hstep.2.1]; exact hidx.2.1)
        (by rw [hstep.1, hstep.2.1]; omega)
      have hdra : CC_RX_Poll_drain (fuel + 1) s
          = ((CC_RX_Poll_drain fuel (CC_RX_Poll_step s).1).1,
            (CC_RX_Poll_step s).2 ++
              (CC_RX_Poll_drain fuel (CC_RX_Poll_step s).1).2) := by
        simp only [CC_RX_Poll_drain, if_neg hne]
      rw [hdra]
      refine ⟨by rw [ih'.1, hstep.1], by rw [ih'.2.1, hstep.1],
        by rw [ih'.2.2.1, hstep.2.2.1],
        by rw [ih'.2.2.2.1, hstep.2.2.2.1],
        by rw [ih'.2.2.2.2.1, hstep.2.2.2.2.1],
        Iff.trans ih'.2.2.2.2.2.1 hstep.2.2.2.2.2.1, ?_, ?_, ?_⟩
      · rw [rxEnqCount_append, hstep.2.2.2.2.2.2.1, ih'.2.2.2.2.2.2.1]
      · rw [rxDeqCount_append, hstep.2.2.2.2.2.2.2.1, ih'.2.2.2.2.2.2.2.1,
          hstep.1, hstep.2.1]
        omega
      · rw [rxTimeoutCount_append, hstep.2.2.2.2.2.2.2.2,
          ih'.2.2.2.2.2.2.2.2]

/-- `CC_RX_Poll` empties the ring (given in-range indices): after the call
`Tail = Head`, there are no buffer stores among the events, and the number of
dequeues equals the pre-call occupancy. -/
theorem CC_RX_Poll_spec (now : Nat) (s : CC_RX_instance_t)
    (hh : s.Head < 32) (ht : s.Tail < 32) :
    (CC_RX_Poll now s).1.Head = s.Head ∧
    (CC_RX_Poll now s).1.Tail = s.Head ∧
    rxEnqCount (CC_RX_Poll now s).2 = 0 ∧
    rxDeqCount (CC_RX_Poll now s).2 = ringDist 32 s.Head s.Tail := by
  have htc := CC_Timeout_Check_fields now s
  have hdist : ringDist 32 (CC_Timeout_Check now s).1.Head
      (CC_Timeout_Check now s).1.Tail = ringDist 32 s.Head s.Tail := by
    rw [htc.1, htc.2.1]
  have hdr := CC_RX_Poll_drain_spec CC_RX_BUFFER_SIZE (CC_Timeout_Check now s).1
    (by rw [htc.1]; exact hh) (by rw [htc.2.1]; exact ht)
    (by rw [hdist]; exact Nat.le_of_lt (ringDist_lt_32 s.Head s.Tail))
  refine ⟨?_, ?_, ?_, ?_⟩
  · show (CC_RX_Poll_drain CC_RX_BUFFER_SIZE (CC_Timeout_Check now s).1).1.Head
      = s.Head
    rw [hdr.1, htc.1]
  · show (CC_RX_Poll_drain CC_RX_BUFFER_SIZE (CC_Timeout_Check now s).1).1.Tail
      = s.Head
    rw [hdr.2.1, htc.1]
  · show rxEnqCount ((CC_Timeout_Check now s).2 ++
      (CC_RX_Poll_drain CC_RX_BUFFER_SIZE (CC_Timeout_Check now s).1).2) = 0
    rw [rxEnqCount_append, htc.2.2.2.2.2.2.1, hdr.2.2.2.2.2.2.1]
  · show rxDeqCount ((CC_Timeout_Check now s).2 ++
      (CC_RX_Poll_drain CC_RX_BUFFER_SIZE (CC_Timeout_Check now s).1).2)
      = ringDist 32 s.Head s.Tail
    rw [rxDeqCount_append, htc.2.2.2.2.2.2.2.1, hdr.2.2.2.2.2.2.2.1, hdist]
    omega

/-- Invariant of RX op sequences: indices stay in `[0, 32)` and the number of
accepted stores minus dequeues equals the ring distance. -/
theorem RX_run_spec :
    ∀ (ops : List RXOp) (s : CC_RX_instance_t),
      s.Head < 32 → s.Tail < 32 →
      (RX_run ops s).1.Head < 32 ∧ (RX_run ops s).1.Tail < 32 ∧
      rxEnqCount (RX_run ops s).2 + ringDist 32 s.Head s.Tail
        = rxDeqCount (RX_run ops s).2 +
            ringDist 32 (RX_run ops s).1.Head (RX_run ops s).1.Tail := by
  intro ops
  induction ops with
  | nil =>
    intro s hh ht
    exact ⟨hh, ht, rfl⟩
  | cons op rest ih =>
    intro s hh ht
    cases op with
    | push ID D DLC IDE i0 =>
      have hrun : RX_run (RXOp.push ID D DLC IDE i0 :: rest) s
          = ((RX_run rest (CC_RX_PushMsg s ID D DLC IDE i0).1).1,
             (CC_RX_PushMsg s ID D DLC IDE i0).2 ++
               (RX_run rest (CC_RX_PushMsg s ID D DLC IDE i0).1).2) := by
        simp only [RX_run]
      rw [hrun]
      rcases CC_RX_PushMsg_cases s ID D DLC IDE i0 hh ht with
        ⟨hfull, heqp⟩ | ⟨hlt, m, heqp⟩
      · rw [heqp]
        dsimp only
        have ih' := ih s hh ht
        refine ⟨ih'.1, ih'.2.1, ?_⟩
        rw [rxEnqCount_append, rxDeqCount_append,
          show rxEnqCount ([] : List CC_RX_event) = 0 from rfl,
          show rxDeqCount ([] : List CC_RX_event) = 0 from rfl]
        have h2 := ih'.2.2
        omega
      · rw [heqp]
        dsimp only
        have hh' : ({ s with Head := (s.Head + 1) % 32,
                             Buf := s.Buf.set ((s.Head + 1) % 32) m }
            : CC_RX_instance_t).Head < 32 := by
          show (s.Head + 1) % 32 < 32
          omega
        have ih' := ih { s with Head := (s.Head + 1) % 32,
                                Buf := s.Buf.set ((s.Head + 1) % 32) m } hh' ht
        refine ⟨ih'.1, ih'.2.1, ?_⟩
        rw [rxEnqCount_append, rxDeqCount_append,
          show rxEnqCount [CC_RX_event.enq m] = 1 from rfl,
          show rxDeqCount [CC_RX_event.enq m] = 0 from rfl]
        have h2 := ih'.2.2
        rw [show ({ s with Head := (s.Head + 1) % 32,
                           Buf := s.Buf.set ((s.Head + 1) % 32) m }
            : CC_RX_instance_t).Head = (s.Head + 1) % 32 from rfl,
          show ({ s with Head := (s.Head + 1) % 32,
                         Buf := s.Buf.set ((s.Head + 1) % 32) m }
            : CC_RX_instance_t).Tail = s.Tail from rfl] at h2
        have hdist : ringDist 32 ((s.Head + 1) % 32) s.Tail
            = ringDist 32 s.Head s.Tail + 1 := by
          unfold ringDist at *
          omega
        omega
    | poll now =>
      have hrun : RX_run (RXOp.poll now :: rest) s
          = ((RX_run rest (CC_RX_Poll now s).1).1,
             (CC_RX_Poll now s).2 ++ (RX_run rest (CC_RX_Poll now s).1).2) := by
        simp only [RX_run]
      rw [hrun]
      dsimp only
      have hp := CC_RX_Poll_spec now s hh ht
      have hh' : (CC_RX_Poll now s).1.Head < 32 := by
        rw [hp.1]
        exact hh
      have ht' : (CC_RX_Poll now s).1.Tail < 32 := by
        rw [hp.2.1]
        exact hh
      have ih' := ih (CC_RX_Poll now s).1 hh' ht'
      refine ⟨ih'.1, ih'.2.1, ?_⟩
      rw [rxEnqCount_append, rxDeqCount_append, hp.2.2.1, hp.2.2.2]
      have h2 := ih'.2.2
      have hdist0 : ringDist 32 (CC_RX_Poll now s).1.Head
          (CC_RX_Poll now s).1.Tail = 0 := by
        rw [hp.1, hp.2.1]
        unfold ringDist
        omega
      omega

/-- Invariant of the TX generation loop: `Tail` is untouched, `Head` stays in
range, each accepted push raises the ring distance by one (counted by `enq`
events), and no send events are emitted. -/
theorem CC_TX_MsgFromTables_go_spec (now i0 : Nat) (xf : Nat → List Nat → List Nat) :
    ∀ (tbl : List CC_TX_table_t) (i : Nat) (Temp : List Nat)
      (inst : CC_TX_instance_t),
      inst.Head < 32 → inst.Tail < 32 →
      (CC_TX_MsgFromTables_go now i0 xf tbl i Temp inst).2.1.Head < 32 ∧
      (CC_TX_MsgFromTables_go now i0 xf tbl i Temp inst).2.1.Tail = inst.Tail ∧
      txEnqCount (CC_TX_MsgFromTables_go now i0 xf tbl i Temp inst).2.2 +
          ringDist 32 inst.Head inst.Tail
        = ringDist 32 (CC_TX_MsgFromTables_go now i0 xf tbl i Temp inst).2.1.Head
            (CC_TX_MsgFromTables_go now i0 xf tbl i Temp inst).2.1.Tail ∧
      txSendCount (CC_TX_MsgFromTables_go now i0 xf tbl i Temp inst).2.2 = 0 := by
  intro tbl
  induction tbl with
  | nil =>
    intro i Temp inst hh ht
    refine ⟨hh, rfl, ?_, rfl⟩
    show (0 : Nat) + ringDist 32 inst.Head inst.Tail
      = ringDist 32 inst.Head inst.Tail
    omega
  | cons e rest ih =>
    intro i Temp inst hh ht
    by_cases hdue : u32sub now e.LastTick ≥ e.SendFreq
    · simp only [CC_TX_MsgFromTables_go, if_pos hdue]
      set T2 := (if e.hasParser = true then xf i (CopyBuf i0 e.Data Temp e.DLC)
        else CopyBuf i0 e.Data Temp e.DLC) with hT2
      have hxfe : txEnqCount (if e.hasParser = true
          then [CC_TX_event.transformCall e.SlotNo T2] else []) = 0 := by
        split <;> rfl
      have hxfs : txSendCount (if e.hasParser = true
          then [CC_TX_event.transformCall e.SlotNo T2] else []) = 0 := by
        split <;> rfl
      rcases CC_TX_PushMsg_cases inst e.ID T2 e.DLC e.IDE_flag i0 hh ht with
        ⟨hfull, heqp⟩ | ⟨hlt, m, heqp⟩
      · rw [heqp]
        dsimp only
        have ih' := ih (i + 1) T2 inst hh ht
        refine ⟨ih'.1, ih'.2.1, ?_, ?_⟩
        · rw [txEnqCount_append, txEnqCount_append, hxfe,
            show txEnqCount ([] : List CC_TX_event) = 0 from rfl]
          have h2 := ih'.2.2.1
          omega
        · rw [txSendCount_append, txSendCount_append, hxfs,
            show txSendCount ([] : List CC_TX_event) = 0 from rfl, ih'.2.2.2]
      · rw [heqp]
        dsimp only
        have hh' : ({ inst with Head := (inst.Head + 1) % 32,
                                Buf := inst.Buf.set ((inst.Head + 1) % 32) m }
            : CC_TX_instance_t).Head < 32 := by
          show (inst.Head + 1) % 32 < 32
          omega
        have ih' := ih (i + 1) T2
          { inst with Head := (inst.Head + 1) % 32,
                      Buf := inst.Buf.set ((inst.Head + 1) % 32) m }
          hh' ht
        refine ⟨ih'.1, ih'.2.1, ?_, ?_⟩
        · rw [txEnqCount_append, txEnqCount_append, hxfe,
            show txEnqCount [CC_TX_event.enq m] = 1 from rfl]
          have h2 := ih'.2.2.1
          rw [show ({ inst with Head := (inst.Head + 1) % 32,
                                Buf := inst.Buf.set ((inst.Head + 1) % 32) m }
              : CC_TX_instance_t).Head = (inst.Head + 1) % 32 from rfl,
            show ({ inst with Head := (inst.Head + 1) % 32,
                              Buf := inst.Buf.set ((inst.Head + 1) % 32) m }
              : CC_TX_instance_t).Tail = inst.Tail from rfl] at h2
          have hdist : ringDist 32 ((inst.Head + 1) % 32) inst.Tail
              = ringDist 32 inst.Head inst.Tail + 1 := by
            unfold ringDist at *
            omega
          omega
        · rw [txSendCount_append, txSendCount_append, hxfs,
            show txSendCount [CC_TX_event.enq m] = 0 from rfl, ih'.2.2.2]
    · simp only [CC_TX_MsgFromTables_go, if_neg hdue]
      exact ih (i + 1) Temp inst hh ht

/-- Invariant of the flush loop (send function installed): it never asserts,
`Head` is untouched, each iteration sends one frame and lowers the ring
distance by one, and no frames are stored. -/
theorem CC_TX_Poll_flush_spec (bus : Nat → CC_BusIsFree_t) :
    ∀ (fuel k : Nat) (inst : CC_TX_instance_t),
      inst.Head < 32 → inst.Tail < 32 → inst.hasSendFunction = true →
      ∃ s2 evs, CC_TX_Poll_flush bus fuel k inst = .ok (s2, evs) ∧
        s2.Head = inst.Head ∧ s2.Tail < 32 ∧
        s2.Buf = inst.Buf ∧ s2.TxTable = inst.TxTable ∧
        s2.hasSendFunction = true ∧ s2.hasBusCheck = inst.hasBusCheck ∧
        txSendCount evs + ringDist 32 s2.Head s2.Tail
          = ringDist 32 inst.Head inst.Tail ∧
        txEnqCount evs = 0 := by
  intro fuel
  induction fuel with
  | zero =>
    intro k inst hh ht hsf
    refine ⟨inst, [], rfl, rfl, ht, rfl, rfl, hsf, rfl, ?_, rfl⟩
    show (0 : Nat) + ringDist 32 inst.Head inst.Tail
      = ringDist 32 inst.Head inst.Tail
    omega
  | succ fuel ih =>
    intro k inst hh ht hsf
    by_cases hc : inst.Head ≠ inst.Tail ∧ bus k = .CC_BUS_FREE
    · have hidx := ringStepTX inst.Head inst.Tail hh ht hc.1
      have heq1 : CC_TX_Poll_flush bus (fuel + 1) k inst
          = (match CC_TX_Poll_flush bus fuel (k + 1)
                { inst with Tail := (inst.Tail + 1) % 32 } with
             | .error er => .error er
             | .ok r => .ok (r.1, CC_TX_event.sendCall
                 (inst.Buf.getD ((inst.Tail + 1) % 32) default) :: r.2)) := by
        simp only [CC_TX_Poll_flush, if_pos hc, hidx.1, hsf, if_true]
      rcases ih (k + 1) { inst with Tail := (inst.Tail + 1) % 32 } hh
        hidx.2.1 hsf with ⟨s2, evs, heq2, h1, h2, h3, h4, h5, h6, h7, h8⟩
      refine ⟨s2, CC_TX_event.sendCall
          (inst.Buf.getD ((inst.Tail + 1) % 32) default) :: evs,
        ?_, ?_, h2, ?_, ?_, h5, ?_, ?_, ?_⟩
      · rw [heq1, heq2]
      · rw [h1]
      · rw [h3]
      · rw [h4]
      · rw [h6]
      · have hcnt : txSendCount (CC_TX_event.sendCall
            (inst.Buf.getD ((inst.Tail + 1) % 32) default) :: evs)
            = txSendCount evs + 1 := by
          simp [txSendCount, List.countP_cons]
        rw [hcnt]
        rw [show ({ inst with Tail := (inst.Tail + 1) % 32 }
            : CC_TX_instance_t).Head = inst.Head from rfl,
          show ({ inst with Tail := (inst.Tail + 1) % 32 }
            : CC_TX_instance_t).Tail = (inst.Tail + 1) % 32 from rfl] at h7
        have hstep := hidx.2.2
        omega
      · have hcnt : txEnqCount (CC_TX_event.sendCall
            (inst.Buf.getD ((inst.Tail + 1) % 32) default) :: evs)
            = txEnqCount evs := by
          simp [txEnqCount, List.countP_cons]
        rw [hcnt, h8]
    · have heq1 : CC_TX_Poll_flush bus (fuel + 1) k inst = .ok (inst, []) := by
        simp only [CC_TX_Poll_flush, if_neg hc]
      refine ⟨inst, [], heq1, rfl, ht, rfl, rfl, hsf, rfl, ?_, rfl⟩
      show (0 : Nat) + ringDist 32 inst.Head inst.Tail
        = ringDist 32 inst.Head inst.Tail
      omega

/-- `CC_TX_Poll` with both callbacks installed and in-range indices never
asserts: it returns normally, preserves the callback flags and the index
bounds, and its events balance the ring distance (stores minus sends). -/
theorem CC_TX_Poll_spec (now i0 : Nat) (Temp0 : List Nat)
    (xf : Nat → List Nat → List Nat) (bus : Nat → CC_BusIsFree_t)
    (inst : CC_TX_instance_t) (hh : inst.Head < 32) (ht : inst.Tail < 32)
    (hbc : inst.hasBusCheck = true) (hsf : inst.hasSendFunction = true) :
    ∃ s2 evs, CC_TX_Poll now i0 Temp0 xf bus inst = .ok (s2, evs) ∧
      s2.Head < 32 ∧ s2.Tail < 32 ∧
      s2.hasSendFunction = true ∧ s2.hasBusCheck = true ∧
      txEnqCount evs + ringDist 32 inst.Head inst.Tail
        = txSendCount evs + ringDist 32 s2.Head s2.Tail := by
  have hgo := CC_TX_MsgFromTables_go_spec now i0 xf inst.TxTable 0 Temp0 inst hh ht
  have hpres := CC_TX_MsgFromTables_go_pres now i0 xf inst.TxTable 0 Temp0 inst
  have hH1 : ({ (CC_TX_MsgFromTables_go now i0 xf inst.TxTable 0 Temp0 inst).2.1 with
      TxTable := (CC_TX_MsgFromTables_go now i0 xf inst.TxTable 0 Temp0 inst).1 }
      : CC_TX_instance_t).Head < 32 := hgo.1
  have hT1 : ({ (CC_TX_MsgFromTables_go now i0 xf inst.TxTable 0 Temp0 inst).2.1 with
      TxTable := (CC_TX_MsgFromTables_go now i0 xf inst.TxTable 0 Temp0 inst).1 }
      : CC_TX_instance_t).Tail < 32 := by
    show (CC_TX_MsgFromTables_go now i0 xf inst.TxTable 0 Temp0 inst).2.1.Tail < 32
    rw [hgo.2.1]
    exact ht
  have hS1 : ({ (CC_TX_MsgFromTables_go now i0 xf inst.TxTable 0 Temp0 inst).2.1 with
      TxTable := (CC_TX_MsgFromTables_go now i0 xf inst.TxTable 0 Temp0 inst).1 }
      : CC_TX_instance_t).hasSendFunction = true := by
    show (CC_TX_MsgFromTables_go now i0 xf inst.TxTable 0 Temp0 inst).2.1.hasSendFunction
      = true
    rw [hpres.2.2.1]
    exact hsf
  rcases CC_TX_Poll_flush_spec bus CC_TX_BUFFER_SIZE 0
      { (CC_TX_MsgFromTables_go now i0 xf inst.TxTable 0 Temp0 inst).2.1 with
        TxTable := (CC_TX_MsgFromTables_go now i0 xf inst.TxTable 0 Temp0 inst).1 }
      hH1 hT1 hS1 with ⟨s2, evs2, heqf, f1, f2, f3, f4, f5, f6, f7, f8⟩
  refine ⟨s2, (CC_TX_MsgFromTables_go now i0 xf inst.TxTable 0 Temp0 inst).2.2 ++ evs2,
    ?_, ?_, f2, f5, ?_, ?_⟩
  · unfold CC_TX_Poll CC_TX_MsgFromTables
    rw [if_pos hbc]
    dsimp only
    rw [heqf]
  · rw [f1]
    exact hgo.1
  · rw [f6]
    show (CC_TX_MsgFromTables_go now i0 xf inst.TxTable 0 Temp0 inst).2.1.hasBusCheck
      = true
    rw [hpres.2.2.2]
    exact hbc
  · rw [txEnqCount_append, txSendCount_append, f8]
    have h1 := hgo.2.2.1
    have h2 := hgo.2.2.2
    have h3 := f7
    rw [show ({ (CC_TX_MsgFromTables_go now i0 xf inst.TxTable 0 Temp0 inst).2.1 with
        TxTable := (CC_TX_MsgFromTables_go now i0 xf inst.TxTable 0 Temp0 inst).1 }
        : CC_TX_instance_t).Head
        = (CC_TX_MsgFromTables_go now i0 xf inst.TxTable 0 Temp0 inst).2.1.Head
        from rfl,
      show ({ (CC_TX_MsgFromTables_go now i0 xf inst.TxTable 0 Temp0 inst).2.1 with
        TxTable := (CC_TX_MsgFromTables_go now i0 xf inst.TxTable 0 Temp0 inst).1 }
        : CC_TX_instance_t).Tail
        = (CC_TX_MsgFromTables_go now i0 xf inst.TxTable 0 Temp0 inst).2.1.Tail
        from rfl] at h3
    rw [show txSendCount
        (CC_TX_MsgFromTables_go now i0 xf inst.TxTable 0 Temp0 inst).2.2
        + txSendCount evs2
        = txSendCount evs2
        + txSendCount
            (CC_TX_MsgFromTables_go now i0 xf inst.TxTable 0 Temp0 inst).2.2
        from by omega, h2]
    omega

/-- Invariant of TX op sequences (both callbacks installed): indices stay in
`[0, 32)` and accepted stores minus sends equals the ring distance. -/
theorem TX_run_spec :
    ∀ (ops : List TXOp) (t : CC_TX_instance_t),
      t.Head < 32 → t.Tail < 32 →
      t.hasSendFunction = true → t.hasBusCheck = true →
      (TX_run ops t).1.Head < 32 ∧ (TX_run ops t).1.Tail < 32 ∧
      (TX_run ops t).1.hasSendFunction = true ∧
      (TX_run ops t).1.hasBusCheck = true ∧
      txEnqCount (TX_run ops t).2 + ringDist 32 t.Head t.Tail
        = txSendCount (TX_run ops t).2 +
            ringDist 32 (TX_run ops t).1.Head (TX_run ops t).1.Tail := by
  intro ops
  induction ops with
  | nil =>
    intro t hh ht hsf hbc
    exact ⟨hh, ht, hsf, hbc, rfl⟩
  | cons op rest ih =>
    intro t hh ht hsf hbc
    cases op with
    | push ID D DLC IDE i0 =>
      have hrun : TX_run (TXOp.push ID D DLC IDE i0 :: rest) t
          = ((TX_run rest (CC_TX_PushMsg t ID D DLC IDE i0).1).1,
             (CC_TX_PushMsg t ID D DLC IDE i0).2 ++
               (TX_run rest (CC_TX_PushMsg t ID D DLC IDE i0).1).2) := by
        simp only [TX_run]
      rw [hrun]
      dsimp only
      rcases CC_TX_PushMsg_cases t ID D DLC IDE i0 hh ht with
        ⟨hfull, heqp⟩ | ⟨hlt, m, heqp⟩
      · rw [heqp]
        dsimp only
        have ih' := ih t hh ht hsf hbc
        refine ⟨ih'.1, ih'.2.1, ih'.2.2.1, ih'.2.2.2.1, ?_⟩
        rw [txEnqCount_append, txSendCount_append,
          show txEnqCount ([] : List CC_TX_event) = 0 from rfl,
          show txSendCount ([] : List CC_TX_event) = 0 from rfl]
        have h2 := ih'.2.2.2.2
        omega
      · rw [heqp]
        dsimp only
        have hh' : ({ t with Head := (t.Head + 1) % 32,
                             Buf := t.Buf.set ((t.Head + 1) % 32) m }
            : CC_TX_instance_t).Head < 32 := by
          show (t.Head + 1) % 32 < 32
          omega
        have ih' := ih { t with Head := (t.Head + 1) % 32,
                                Buf := t.Buf.set ((t.Head + 1) % 32) m } hh' ht hsf hbc
        refine ⟨ih'.1, ih'.2.1, ih'.2.2.1, ih'.2.2.2.1, ?_⟩
        rw [txEnqCount_append, txSendCount_append,
          show txEnqCount [CC_TX_event.enq m] = 1 from rfl,
          show txSendCount [CC_TX_event.enq m] = 0 from rfl]
        have h2 := ih'.2.2.2.2
        rw [show ({ t with Head := (t.Head + 1) % 32,
                           Buf := t.Buf.set ((t.Head + 1) % 32) m }
            : CC_TX_instance_t).Head = (t.Head + 1) % 32 from rfl,
          show ({ t with Head := (t.Head + 1) % 32,
                         Buf := t.Buf.set ((t.Head + 1) % 32) m }
            : CC_TX_instance_t).Tail = t.Tail from rfl] at h2
        have hdist : ringDist 32 ((t.Head + 1) % 32) t.Tail
            = ringDist 32 t.Head t.Tail + 1 := by
          unfold ringDist at *
          omega
        omega
    | poll now i0 Temp0 xf bus =>
      rcases CC_TX_Poll_spec now i0 Temp0 xf bus t hh ht hbc hsf with
        ⟨s2, evs, heqp, p1, p2, p3, p4, p5⟩
      have hrun : TX_run (TXOp.poll now i0 Temp0 xf bus :: rest) t
          = ((TX_run rest s2).1, evs ++ (TX_run rest s2).2) := by
        simp only [TX_run, heqp]
      rw [hrun]
      dsimp only
      have ih' := ih s2 p1 p2 p3 p4
      refine ⟨ih'.1, ih'.2.1, ih'.2.2.1, ih'.2.2.2.1, ?_⟩
      rw [txEnqCount_append, txSendCount_append]
      have h2 := ih'.2.2.2.2
      omega

/-- One drain iteration with a NULL table: the dispatch returns immediately
(`CC_MSG_UNREG`) without reading any entry, so the frame goes to the fallback
handler exactly when one is installed. -/
theorem CC_RX_Poll_step_none (s : CC_RX_instance_t) (htbl : s.RxTable = none) :
    (CC_RX_Poll_step s).1
      = { s with Tail := (if CC_RX_BUFFER_SIZE ≤ (s.Tail + 1) % U16_MOD then 0
          else (s.Tail + 1) % U16_MOD) } ∧
    (CC_RX_Poll_step s).2
      = CC_RX_event.deq (s.Buf.getD
          (if CC_RX_BUFFER_SIZE ≤ (s.Tail + 1) % U16_MOD then 0
            else (s.Tail + 1) % U16_MOD) default) ::
        (if s.hasParser_unreg_msg = true
          then [CC_RX_event.unregCall (s.Buf.getD
            (if CC_RX_BUFFER_SIZE ≤ (s.Tail + 1) % U16_MOD then 0
              else (s.Tail + 1) % U16_MOD) default)]
          else []) := by
  cases hflag : s.hasParser_unreg_msg <;>
    simp [CC_RX_Poll_step, CC_RX_MsgFromTables, htbl, hflag]

/-- Drain with a NULL table: no parser is ever invoked, and the fallback
handler fires once per dequeued frame when installed (never otherwise). -/
theorem CC_RX_Poll_drain_none :
    ∀ (fuel : Nat) (s : CC_RX_instance_t), s.RxTable = none →
      rxParserCount (CC_RX_Poll_drain fuel s).2 = 0 ∧
      rxUnregCount (CC_RX_Poll_drain fuel s).2
        = (if s.hasParser_unreg_msg = true
            then rxDeqCount (CC_RX_Poll_drain fuel s).2 else 0) := by
  intro fuel
  induction fuel with
  | zero =>
    intro s htbl
    exact ⟨rfl, by split <;> rfl⟩
  | succ fuel ih =>
    intro s htbl
    by_cases hne : s.Head = s.Tail
    · have hdra : CC_RX_Poll_drain (fuel + 1) s = (s, []) := by
        simp only [CC_RX_Poll_drain, if_pos hne]
      rw [hdra]
      exact ⟨rfl, by split <;> rfl⟩
    · have hdra : CC_RX_Poll_drain (fuel + 1) s
          = ((CC_RX_Poll_drain fuel (CC_RX_Poll_step s).1).1,
            (CC_RX_Poll_step s).2 ++
              (CC_RX_Poll_drain fuel (CC_RX_Poll_step s).1).2) := by
        simp only [CC_RX_Poll_drain, if_neg hne]
      rw [hdra]
      dsimp only
      have hstepn := CC_RX_Poll_step_none s htbl
      have htbl' : (CC_RX_Poll_step s).1.RxTable = none := by
        rw [hstepn.1]
        exact htbl
      have hflag' : (CC_RX_Poll_step s).1.hasParser_unreg_msg
          = s.hasParser_unreg_msg := by
        rw [hstepn.1]
      have ih' := ih (CC_RX_Poll_step s).1 htbl'
      rw [hflag'] at ih'
      have hsp : rxParserCount (CC_RX_Poll_step s).2 = 0 := by
        rw [hstepn.2]
        cases hf2 : s.hasParser_unreg_msg <;> simp [hf2, rxParserCount]
      have hsu : rxUnregCount (CC_RX_Poll_step s).2
          = (if s.hasParser_unreg_msg = true then 1 else 0) := by
        rw [hstepn.2]
        cases hf2 : s.hasParser_unreg_msg <;> simp [hf2, rxUnregCount]
      have hsd : rxDeqCount (CC_RX_Poll_step s).2 = 1 := by
        rw [hstepn.2]
        cases hf2 : s.hasParser_unreg_msg <;> simp [hf2, rxDeqCount]
      rw [rxParserCount_append, rxUnregCount_append, rxDeqCount_append,
        ih'.1, ih'.2, hsp, hsu, hsd]
      refine ⟨rfl, ?_⟩
      cases hflag : s.hasParser_unreg_msg
      · simp [hflag]
      · simp [hflag]

/-- C10: with a NULL registration table, `CC_RX_Poll` is well-defined — the
timeout phase does nothing and no timeout callback fires, the table stays
NULL (the dispatch returns before reading it), no per-entry parser is ever
invoked, the buffer is fully drained, and every dequeued frame goes to the
fallback handler exactly when one is installed (silently discarded
otherwise). -/
theorem CC_C10_null_table_poll (now : Nat) (s : CC_RX_instance_t)
    (htbl : s.RxTable = none) (hh : s.Head < 32) (ht : s.Tail < 32) :
    (CC_RX_Poll now s).1.RxTable = none ∧
    (CC_RX_Poll now s).1.Head = s.Head ∧
    (CC_RX_Poll now s).1.Tail = s.Head ∧
    rxTimeoutCount (CC_RX_Poll now s).2 = 0 ∧
    rxParserCount (CC_RX_Poll now s).2 = 0 ∧
    rxDeqCount (CC_RX_Poll now s).2 = ringDist 32 s.Head s.Tail ∧
    rxUnregCount (CC_RX_Poll now s).2
      = (if s.hasParser_unreg_msg = true then ringDist 32 s.Head s.Tail
          else 0) := by
  have htc : CC_Timeout_Check now s = (s, []) := by
    simp [CC_Timeout_Check, htbl]
  have hpoll : CC_RX_Poll now s
      = ((CC_RX_Poll_drain CC_RX_BUFFER_SIZE s).1,
        [] ++ (CC_RX_Poll_drain CC_RX_BUFFER_SIZE s).2) := by
    unfold CC_RX_Poll
    rw [htc]
  have hbound : ringDist 32 s.Head s.Tail ≤ CC_RX_BUFFER_SIZE := by
    have := ringDist_lt_32 s.Head s.Tail
    show ringDist 32 s.Head s.Tail ≤ 32
    omega
  have hdr := CC_RX_Poll_drain_spec CC_RX_BUFFER_SIZE s hh ht hbound
  have hdn := CC_RX_Poll_drain_none CC_RX_BUFFER_SIZE s htbl
  rw [hpoll]
  dsimp only
  rw [show ([] : List CC_RX_event) ++ (CC_RX_Poll_drain CC_RX_BUFFER_SIZE s).2
    = (CC_RX_Poll_drain CC_RX_BUFFER_SIZE s).2 from rfl]
  refine ⟨hdr.2.2.2.2.2.1.mpr htbl, hdr.1, hdr.2.1, hdr.2.2.2.2.2.2.2.2,
    hdn.1, hdr.2.2.2.2.2.2.2.1, ?_⟩
  rw [hdn.2, hdr.2.2.2.2.2.2.2.1]

/-- Witness for C10: a NULL-table instance holding two pending frames with
the fallback installed — Poll drains both to the fallback. -/
theorem CC_C10_null_table_poll_witness :
    (rxC10inst.RxTable = none ∧ rxC10inst.Head < 32 ∧ rxC10inst.Tail < 32) ∧
    ((CC_RX_Poll 0 rxC10inst).1.RxTable = none ∧
     (CC_RX_Poll 0 rxC10inst).1.Head = rxC10inst.Head ∧
     (CC_RX_Poll 0 rxC10inst).1.Tail = rxC10inst.Head ∧
     rxTimeoutCount (CC_RX_Poll 0 rxC10inst).2 = 0 ∧
     rxParserCount (CC_RX_Poll 0 rxC10inst).2 = 0 ∧
     rxDeqCount (CC_RX_Poll 0 rxC10inst).2
        = ringDist 32 rxC10inst.Head rxC10inst.Tail ∧
     rxUnregCount (CC_RX_Poll 0 rxC10inst).2
        = (if rxC10inst.hasParser_unreg_msg = true
            then ringDist 32 rxC10inst.Head rxC10inst.Tail else 0)) :=
  ⟨by decide, CC_C10_null_table_poll 0 rxC10inst rfl (by decide) (by decide)⟩

/-- C1: for every sequence of push (`CC_RX_PushMsg` / `CC_TX_PushMsg`) and
Poll (drain / flush) operations on initialized instances (zeroed indices;
for TX, both mandatory callbacks installed), the occupied slot count — the
number of accepted buffer stores minus the number of dequeues — equals
`(Head − Tail) mod 32`, never exceeds `31 = capacity − 1`, and `Head` and
`Tail` always remain within `[0, 32)`. -/
theorem CC_C1_ring_invariant (rops : List RXOp) (tops : List TXOp)
    (s0 : CC_RX_instance_t) (t0 : CC_TX_instance_t)
    (hs1 : s0.Head = 0) (hs2 : s0.Tail = 0)
    (ht1 : t0.Head = 0) (ht2 : t0.Tail = 0)
    (ht3 : t0.hasSendFunction = true) (ht4 : t0.hasBusCheck = true) :
    ((RX_run rops s0).1.Head < 32 ∧ (RX_run rops s0).1.Tail < 32 ∧
     ringDist 32 (RX_run rops s0).1.Head (RX_run rops s0).1.Tail ≤ 31 ∧
     rxEnqCount (RX_run rops s0).2
       = rxDeqCount (RX_run rops s0).2 +
           ringDist 32 (RX_run rops s0).1.Head (RX_run rops s0).1.Tail) ∧
    ((TX_run tops t0).1.Head < 32 ∧ (TX_run tops t0).1.Tail < 32 ∧
     ringDist 32 (TX_run tops t0).1.Head (TX_run tops t0).1.Tail ≤ 31 ∧
     txEnqCount (TX_run tops t0).2
       = txSendCount (TX_run tops t0).2 +
           ringDist 32 (TX_run tops t0).1.Head (TX_run tops t0).1.Tail) := by
  have hs0 : ringDist 32 s0.Head s0.Tail = 0 := by
    rw [hs1, hs2]
    decide
  have ht0 : ringDist 32 t0.Head t0.Tail = 0 := by
    rw [ht1, ht2]
    decide
  have hr := RX_run_spec rops s0 (by omega) (by omega)
  have ht := TX_run_spec tops t0 (by omega) (by omega) ht3 ht4
  have hrb := ringDist_lt_32 (RX_run rops s0).1.Head (RX_run rops s0).1.Tail
  have htb := ringDist_lt_32 (TX_run tops t0).1.Head (TX_run tops t0).1.Tail
  refine ⟨⟨hr.1, hr.2.1, by omega, ?_⟩, ⟨ht.1, ht.2.1, by omega, ?_⟩⟩
  · have h2 := hr.2.2
    rw [hs0] at h2
    omega
  · have h2 := ht.2.2.2.2
    rw [ht0] at h2
    omega

/-- Witness for C1 at the concrete op sequences `rxOpsC1` / `txOpsC1` on the
zero-initialized instances. -/
theorem CC_C1_ring_invariant_witness :
    (rxEmpty.Head = 0 ∧ rxEmpty.Tail = 0 ∧ txEmpty.Head = 0 ∧
     txEmpty.Tail = 0 ∧ txEmpty.hasSendFunction = true ∧
     txEmpty.hasBusCheck = true) ∧
    (((RX_run rxOpsC1 rxEmpty).1.Head < 32 ∧
      (RX_run rxOpsC1 rxEmpty).1.Tail < 32 ∧
      ringDist 32 (RX_run rxOpsC1 rxEmpty).1.Head
        (RX_run rxOpsC1 rxEmpty).1.Tail ≤ 31 ∧
      rxEnqCount (RX_run rxOpsC1 rxEmpty).2
        = rxDeqCount (RX_run rxOpsC1 rxEmpty).2 +
            ringDist 32 (RX_run rxOpsC1 rxEmpty).1.Head
              (RX_run rxOpsC1 rxEmpty).1.Tail) ∧
     ((TX_run txOpsC1 txEmpty).1.Head < 32 ∧
      (TX_run txOpsC1 txEmpty).1.Tail < 32 ∧
      ringDist 32 (TX_run txOpsC1 txEmpty).1.Head
        (TX_run txOpsC1 txEmpty).1.Tail ≤ 31 ∧
      txEnqCount (TX_run txOpsC1 txEmpty).2
        = txSendCount (TX_run txOpsC1 txEmpty).2 +
            ringDist 32 (TX_run txOpsC1 txEmpty).1.Head
              (TX_run txOpsC1 txEmpty).1.Tail)) :=
  ⟨by decide,
    CC_C1_ring_invariant rxOpsC1 txOpsC1 rxEmpty txEmpty
      rfl rfl rfl rfl rfl rfl⟩

end CanCore
